import Mathlib

/-!
Verification of the pregnancy-data filter (src/filter.js).

The repository holds two variants of one Node.js script, concatenated in
src/filter.js: a strict variant (whole-client rejection, first half) and a
salvage variant (per-pregnancy salvage, second half).  Both are embedded
shallowly below over a model `JVal` of JSON-like JavaScript values.

Modelling conventions (documented once here):
* JavaScript property access is total in the model: reading a property of
  `null`/`undefined` (which throws a TypeError in JS) and of a number or
  boolean (which yields `undefined`) both return `.undef`.  All validation
  and filter paths exercised by the theorems guard these accesses the same
  way the source does.
* Machine numbers are modelled as `Int` (the datasets hold integer ids and
  counts; no claim depends on fractional or NaN behaviour).
* `Object.keys`, the `in` operator and `for (const x of a)` are modelled on
  objects and arrays exactly (insertion order, canonical index strings);
  `for ... of` over a non-iterable (a JS TypeError) is totalised to the
  empty iteration, and theorems that depend on that loop take an
  `isArr` hypothesis so that they only speak about the throw-free runs.
* The imperative accumulation loops of `processData` are rendered as
  structural recursion over the input list; the per-client contributions
  are concatenated in input order, which is what the JS pushes produce.
-/

/-- A JSON-like JavaScript value: the data the filter script processes.
Objects are insertion-ordered association lists, as in JS. -/
inductive JVal where
  | null
  | undef
  | bool (b : Bool)
  | num (n : Int)
  | str (s : String)
  | arr (elems : List JVal)
  | obj (fields : List (String × JVal))
deriving Repr

/-- JS truthiness of a value (no NaN in the model). -/
def truthy : JVal → Bool
  | .null => false
  | .undef => false
  | .bool b => b
  | .num n => n != 0
  | .str s => s != ""
  | .arr _ => true
  | .obj _ => true

/-- JS `typeof v === 'object'` (true for null, arrays and plain objects). -/
def typeofObject : JVal → Bool
  | .null => true
  | .arr _ => true
  | .obj _ => true
  | _ => false

/-- The guard `obj && typeof obj === 'object'` used by pickProperties and
filterDataEncr: truthy and of object type, i.e. an array or an object. -/
def isObjLike (v : JVal) : Bool := truthy v && typeofObject v

/-- `Array.isArray`. -/
def isArr : JVal → Bool
  | .arr _ => true
  | _ => false

/-- `v === null || v === undefined`. -/
def isNullish : JVal → Bool
  | .null => true
  | .undef => true
  | _ => false

/-- An array of length zero (`Array.isArray(v) && v.length === 0`). -/
def isEmptyArr : JVal → Bool
  | .arr [] => true
  | _ => false

/-- First-match lookup in an association list (JS objects built by the model
have unique keys, so first match is the JS lookup). -/
def lookupField : List (String × JVal) → String → Option JVal
  | [], _ => none
  | (k, v) :: rest, key => if k == key then some v else lookupField rest key

/-- The numeric value of a list of decimal digit characters. -/
def digitsToNat (cs : List Char) : Nat :=
  cs.foldl (fun acc c => acc * 10 + (c.toNat - 48)) 0

/-- A canonical decimal-index string parsed to its value: all digits, no
leading zero (JS array indexing by string key: `"1"` hits index 1, `"01"`
does not).  Structural, so concrete instances reduce by `rfl`. -/
def parseCanonIndex (key : String) : Option Nat :=
  match key.data with
  | [] => none
  | c :: rest =>
    if c == '0' then (if rest.isEmpty then some 0 else none)
    else if c.isDigit && rest.all Char.isDigit then some (digitsToNat (c :: rest))
    else none

/-- A canonical array-index string below `len`. -/
def canonIndex (key : String) (len : Nat) : Option Nat :=
  match parseCanonIndex key with
  | some i => if i < len then some i else none
  | none => none

/-- The decimal digit character for `n < 10`. -/
def natDigitChar (n : Nat) : Char := Char.ofNat (48 + n)

/-- Fuel-driven digit expansion of a natural number (structural so that it
reduces by `rfl`; the fuel `n + 1` always suffices). -/
def natToCharsAux : Nat → Nat → List Char
  | 0, _ => []
  | _ + 1, 0 => []
  | fuel + 1, n => natToCharsAux fuel (n / 10) ++ [natDigitChar (n % 10)]

/-- Decimal rendering of a natural number (JS `String(i)` for array
indices). -/
def natToString (n : Nat) : String :=
  if n == 0 then "0" else String.mk (natToCharsAux (n + 1) n)

/-- JS property read `v[key]`, totalised (see the module comment): objects
look the key up, arrays and strings expose `length` and canonical indices,
everything else yields `undefined`. -/
def getProp (v : JVal) (key : String) : JVal :=
  match v with
  | .obj fields => (lookupField fields key).getD .undef
  | .arr xs =>
    if key == "length" then .num (Int.ofNat xs.length)
    else
      match canonIndex key xs.length with
      | some i => xs.getD i .undef
      | none => .undef
  | .str s =>
    if key == "length" then .num (Int.ofNat s.length)
    else
      match canonIndex key s.length with
      | some i => .str (String.mk [s.data.getD i ' '])
      | none => .undef
  | _ => JVal.undef

/-- JS numeric indexing `v[i]` with `i : Nat` (used by the strict variant's
`client.pregnancies[i]`). -/
def getIdx (v : JVal) (i : Nat) : JVal :=
  match v with
  | .arr xs => xs.getD i .undef
  | .str s => if i < s.length then .str (String.mk [s.data.getD i ' ']) else .undef
  | .obj _ => getProp v (natToString i)
  | _ => JVal.undef

/-- The JS `key in v` test as pickProperties uses it (only reached for
objects and arrays). -/
def hasProp (v : JVal) (key : String) : Bool :=
  match v with
  | .obj fields => fields.any (fun f => f.1 == key)
  | .arr xs => key == "length" || (canonIndex key xs.length).isSome
  | _ => false

/-- `Object.keys(v)`: own enumerable keys in insertion order (for arrays the
canonical index strings; `length` is not enumerable). -/
def objKeys : JVal → List String
  | .obj fields => fields.map Prod.fst
  | .arr xs => (List.range xs.length).map natToString
  | _ => []

/-- The elements `for (const x of v)` iterates: array elements, string
characters; a non-iterable throws in JS and is totalised to no iterations
(theorems needing this loop assume `isArr`). -/
def iterElems : JVal → List JVal
  | .arr xs => xs
  | .str s => s.data.map (fun c => .str (String.mk [c]))
  | _ => []

mutual

/-- JS string conversion as used in template literals. -/
def jsToString : JVal → String
  | .null => "null"
  | .undef => "undefined"
  | .bool b => cond b "true" "false"
  | .num n => toString n
  | .str s => s
  | .arr xs => jsJoin xs
  | .obj _ => "[object Object]"

/-- `Array.prototype.join(',')` of the default array-to-string conversion
(null and undefined elements become empty). -/
def jsJoin : List JVal → String
  | [] => ""
  | [.null] => ""
  | [.undef] => ""
  | [v] => jsToString v
  | .null :: rest => "," ++ jsJoin rest
  | .undef :: rest => "," ++ jsJoin rest
  | v :: rest => jsToString v ++ "," ++ jsJoin rest

end

/-! ## CONFIG (identical in both variants except `required.pregnancy`) -/

namespace CONFIG

def requiredClient : List String := ["pregnancies"]

/-- `CONFIG.required.pregnancy` of the strict variant. -/
def requiredPregnancyStrict : List String := ["birth"]

/-- `CONFIG.required.pregnancy` of the salvage variant. -/
def requiredPregnancySalvage : List String := ["birth", "cares_after", "cares_after_phone"]

def requiredBirth : List String := ["children"]

def whitelistClient : List String := ["id", "pregnancies"]

def whitelistPregnancy : List String :=
  ["id", "id_client", "data_encr", "expected_birth_date",
   "birth", "cares_after", "cares_after_phone"]

def whitelistBirth : List String := ["id", "id_pregnancy", "data_encr", "children"]

def whitelistChild : List String :=
  ["id", "id_birth", "date_birth", "data_encr",
   "created_at", "updated_at", "deleted_at",
   "created_by", "updated_by", "in_dashboard",
   "pregnancy_id", "client_id"]

def whitelistCareAfter : List String :=
  ["id", "id_pregnancy", "data_encr", "date_start", "date_end"]

def whitelistCareAfterPhone : List String :=
  ["id", "id_user", "id_pregnancy", "date_start", "date_end", "is_breast_feeding"]

def dataEncrPregnancy : List String := ["fields-type", "egt", "grav", "para", "stillwunsch"]

def dataEncrBirth : List String :=
  ["fields-type", "geburts-modus", "blutverlust", "mother-entlassungdatum"]

def dataEncrChild : List String := ["fields-type", "birth_date", "birth_time"]

def dataEncrCareAfter : List String :=
  ["stillt", "child-tab", "ibds-left", "ibds-right",
   "care_length", "is_first_care", "laktierend-left", "laktierend-right",
   "regelrechtes-wochenbett"]

def careAfterDynamicPatterns : List String :=
  ["kind-{id}-nahrung", "kind-{id}-physiologisches-neugeborenes"]

end CONFIG

/-! ## Helper functions (pickProperties, filterDataEncr, matchesDynamicPattern,
isValidValue) -/

/-- `pickProperties(obj, keys)`: non-object-like input passes through; else a
new object holding, in `keys` order, each key present in `obj` with its
value. -/
def pickProperties (obj : JVal) (keys : List String) : JVal :=
  if isObjLike obj = false then obj
  else
    .obj (keys.filterMap (fun key =>
      if hasProp obj key then some (key, getProp obj key) else none))

/-- Does `k` start with `pre`? (plain structural Boolean on char lists). -/
def leadsWith : List Char → List Char → Bool
  | [], _ => true
  | _ :: _, [] => false
  | a :: as, b :: bs => a == b && leadsWith as bs

/-- Does `k` end with `suf`? -/
def trailsWith (suf k : List Char) : Bool := leadsWith suf.reverse k.reverse

/-- Splits `s` around the first occurrence of `pat` (`none` if absent):
`some (pre, suf)` with `s = pre ++ pat ++ suf`.  Models the single-occurrence
`String.prototype.replace` of the source. -/
def splitAtFirstAux (pat : List Char) : List Char → Option (List Char × List Char)
  | [] => if pat.isEmpty then some ([], []) else none
  | c :: rest =>
    if leadsWith pat (c :: rest) then some ([], (c :: rest).drop pat.length)
    else
      match splitAtFirstAux pat rest with
      | some (pre, suf) => some (c :: pre, suf)
      | none => none

/-- The anchored matcher after the pattern's `{id}` has been substituted by
one-or-more-digits: `k = pre ++ digits+ ++ suf`.  Checked via prefix, suffix,
a length bound and an all-digits middle; `matchesWithSplit_iff` below proves
this equivalent to the existence of the digit block, which is the semantics
of the regex `^pre\d+suf$` for metacharacter-free `pre`/`suf` (true of both
configured patterns). -/
def matchesWithSplit (pre suf k : List Char) : Bool :=
  leadsWith pre k && trailsWith suf k && decide (pre.length + suf.length < k.length) &&
  ((k.drop pre.length).take (k.length - pre.length - suf.length)).all Char.isDigit

/-- `matchesDynamicPattern(key, pattern)`: replace the first `{id}` by `\d+`
and test the anchored regex `^...$` against `key`.  A pattern with no `{id}`
substitutes nothing, so the anchored regex is the literal pattern. -/
def matchesDynamicPattern (key pattern : String) : Bool :=
  match splitAtFirstAux "{id}".data pattern.data with
  | some (pre, suf) => matchesWithSplit pre suf key.data
  | none => key == pattern

/-- Should `filterDataEncr` keep this key: literally allowed, or (when
dynamic patterns are supplied) matching one of them. -/
def keepKey (allowedKeys : List String) (dynamicPatterns : Option (List String))
    (key : String) : Bool :=
  allowedKeys.contains key ||
    (match dynamicPatterns with
     | some pats => pats.any (fun pattern => matchesDynamicPattern key pattern)
     | none => false)

/-- `filterDataEncr(dataEncr, allowedKeys, dynamicPatterns)`: non-object-like
input passes through; else a new object keeping, in the blob's own key
order, exactly the keys `keepKey` accepts, with their values. -/
def filterDataEncr (dataEncr : JVal) (allowedKeys : List String)
    (dynamicPatterns : Option (List String)) : JVal :=
  if isObjLike dataEncr = false then dataEncr
  else
    .obj ((objKeys dataEncr).filterMap (fun key =>
      if keepKey allowedKeys dynamicPatterns key then some (key, getProp dataEncr key)
      else none))

/-- `isValidValue(value, checkNonEmptyArray)`: false exactly for
null/undefined and — when the flag is set — for an empty array. -/
def isValidValue (value : JVal) (checkNonEmptyArray : Bool) : Bool :=
  if isNullish value then false
  else if checkNonEmptyArray && isEmptyArr value then false
  else true

/-! ## Validation -/

/-- `validateEntity(entity, requiredFields, checkArrayNonEmpty)`.  The source
returns `{valid, missingField}` with `missingField` null iff `valid`; that
pair is encoded as `Option String` (`some f` = invalid at first failing
field `f`, `none` = valid).  Fields are read with `entity?.[field]`. -/
def validateEntity (entity : JVal) (requiredFields : List String)
    (checkArrayNonEmpty : Bool) : Option String :=
  match requiredFields with
  | [] => none
  | field :: rest =>
    if isValidValue (getProp entity field) checkArrayNonEmpty = false then some field
    else validateEntity entity rest checkArrayNonEmpty

/-- The reason string of a client-level required-field failure (same text in
both variants). -/
def clientReason (f : String) : String :=
  "Missing required field 'client." ++ f ++ "' (defined in CONFIG.required.client)"

/-! ## Property assignment and array map (JS object/array operations used by
the filter functions) -/

/-- JS property assignment `v[key] = newVal` on an object (update in place
keeps the key's insertion position; a fresh key is appended), and the object
spread `{...v, key: newVal}` which has the same key semantics.  Only ever
applied to objects by the source (guards keep primitives away); totalised to
a one-field object otherwise. -/
def setProp (v : JVal) (key : String) (newVal : JVal) : JVal :=
  match v with
  | .obj fields =>
    if fields.any (fun f => f.1 == key) then
      .obj (fields.map (fun f => if f.1 == key then (f.1, newVal) else f))
    else .obj (fields ++ [(key, newVal)])
  | _ => .obj [(key, newVal)]

/-- `a.map(f)` for an array value (the source always guards with
`Array.isArray`). -/
def mapArr (f : JVal → JVal) : JVal → JVal
  | .arr xs => .arr (xs.map f)
  | v => v

/-! ## Filter functions (textually identical in both variants) -/

def filterCareAfterPhone (careAfterPhone : JVal) : JVal :=
  pickProperties careAfterPhone CONFIG.whitelistCareAfterPhone

def filterCareAfter (careAfter : JVal) : JVal :=
  let filtered := pickProperties careAfter CONFIG.whitelistCareAfter
  if truthy (getProp filtered "data_encr") then
    setProp filtered "data_encr"
      (filterDataEncr (getProp filtered "data_encr") CONFIG.dataEncrCareAfter
        (some CONFIG.careAfterDynamicPatterns))
  else filtered

def filterChild (child : JVal) : JVal :=
  let filtered := pickProperties child CONFIG.whitelistChild
  if truthy (getProp filtered "data_encr") then
    setProp filtered "data_encr"
      (filterDataEncr (getProp filtered "data_encr") CONFIG.dataEncrChild none)
  else filtered

def filterBirth (birth : JVal) : JVal :=
  if truthy birth = false then .null
  else
    let f1 := pickProperties birth CONFIG.whitelistBirth
    let f2 :=
      if truthy (getProp f1 "data_encr") then
        setProp f1 "data_encr"
          (filterDataEncr (getProp f1 "data_encr") CONFIG.dataEncrBirth none)
      else f1
    if truthy (getProp f2 "children") && isArr (getProp f2 "children") then
      setProp f2 "children" (mapArr filterChild (getProp f2 "children"))
    else f2

def filterPregnancy (pregnancy : JVal) : JVal :=
  let f1 := pickProperties pregnancy CONFIG.whitelistPregnancy
  let f2 :=
    if truthy (getProp f1 "data_encr") then
      setProp f1 "data_encr"
        (filterDataEncr (getProp f1 "data_encr") CONFIG.dataEncrPregnancy none)
    else f1
  let f3 :=
    if truthy (getProp f2 "birth") then
      setProp f2 "birth" (filterBirth (getProp f2 "birth"))
    else f2
  let f4 :=
    if truthy (getProp f3 "cares_after") && isArr (getProp f3 "cares_after") then
      setProp f3 "cares_after" (mapArr filterCareAfter (getProp f3 "cares_after"))
    else f3
  if truthy (getProp f4 "cares_after_phone") && isArr (getProp f4 "cares_after_phone") then
    setProp f4 "cares_after_phone" (mapArr filterCareAfterPhone (getProp f4 "cares_after_phone"))
  else f4

def filterClient (client : JVal) : JVal :=
  let f1 := pickProperties client CONFIG.whitelistClient
  if truthy (getProp f1 "pregnancies") && isArr (getProp f1 "pregnancies") then
    setProp f1 "pregnancies" (mapArr filterPregnancy (getProp f1 "pregnancies"))
  else f1

/-! ## Pipeline results -/

/-- One entry of `results.skippedClients`. -/
structure SkippedClient where
  id : JVal
  reason : String
deriving Repr

/-- One entry of the salvage variant's `results.skippedPregnancies`. -/
structure SkippedPregnancy where
  clientId : JVal
  pregnancyId : JVal
  reason : String
deriving Repr

/-- The strict variant's `results` accumulator. -/
structure StrictResults where
  totalClients : Nat
  successCount : Nat
  skippedCount : Nat
  skippedClients : List SkippedClient
deriving Repr

/-- The salvage variant's `results` accumulator. -/
structure SalvageResults where
  totalClients : Nat
  successCount : Nat
  skippedClientsCount : Nat
  skippedClients : List SkippedClient
  skippedPregnanciesCount : Nat
  skippedPregnancies : List SkippedPregnancy
deriving Repr

/-! ## Strict variant: validation and processing -/

namespace Strict

/-- Reason text of a pregnancy-level failure in the strict `validateClient`
(template literal of the source, index and id interpolated). -/
def pregReason (i : Nat) (pregnancy : JVal) (f : String) : String :=
  "Pregnancy[" ++ natToString i ++ "] (id: " ++ jsToString (getProp pregnancy "id") ++
    "): Missing required field 'pregnancy." ++ f ++ "' (defined in CONFIG.required.pregnancy)"

/-- Reason text of a birth-level failure in the strict `validateClient`. -/
def birthReason (i : Nat) (pregnancy : JVal) (f : String) : String :=
  "Pregnancy[" ++ natToString i ++ "] (id: " ++ jsToString (getProp pregnancy "id") ++
    "): Missing required field 'birth." ++ f ++ "' (defined in CONFIG.required.birth)"

/-- The bound of `for (let i = 0; i < client.pregnancies.length; i++)`: the
numeric value of the `length` property (`i < undefined` is false, so a
missing or non-numeric length runs zero iterations; a negative one too). -/
def loopLen (v : JVal) : Nat :=
  match getProp v "length" with
  | .num n => n.toNat
  | _ => 0

/-- The strict pregnancy loop from index `i` with `r` iterations left:
checks `CONFIG.required.pregnancy` on each pregnancy (no array-emptiness),
then — when `pregnancy.birth` is truthy — `CONFIG.required.birth` with the
non-empty-array check, returning the first failure's reason. -/
def checkPregnanciesFrom (pregs : JVal) : Nat → Nat → Option String
  | 0, _ => none
  | r + 1, i =>
    let pregnancy := getIdx pregs i
    match validateEntity pregnancy CONFIG.requiredPregnancyStrict false with
    | some f => some (pregReason i pregnancy f)
    | none =>
      if truthy (getProp pregnancy "birth") then
        match validateEntity (getProp pregnancy "birth") CONFIG.requiredBirth true with
        | some f => some (birthReason i pregnancy f)
        | none => checkPregnanciesFrom pregs r (i + 1)
      else checkPregnanciesFrom pregs r (i + 1)

/-- The strict `validateClient`, encoded as `Option String` (`none` = valid,
`some reason` = invalid). -/
def validateClient (client : JVal) : Option String :=
  match validateEntity client CONFIG.requiredClient true with
  | some f => some (clientReason f)
  | none =>
    let pregs := getProp client "pregnancies"
    checkPregnanciesFrom pregs (loopLen pregs) 0

/-- One iteration of the strict `processData` loop: the client's
contribution to the output and to `skippedClients`. -/
def clientStep (client : JVal) : List JVal × List SkippedClient :=
  match validateClient client with
  | none => ([filterClient client], [])
  | some reason => ([], [⟨getProp client "id", reason⟩])

/-- The strict `processData` over an input array (the non-array fatal path
is process-exit I/O, outside the model). -/
def processData (input : List JVal) : List JVal × StrictResults :=
  match input with
  | [] => ([], ⟨0, 0, 0, []⟩)
  | client :: rest =>
    let s := clientStep client
    let r := processData rest
    (s.1 ++ r.1,
     ⟨r.2.totalClients + 1,
      r.2.successCount + s.1.length,
      r.2.skippedCount + s.2.length,
      s.2 ++ r.2.skippedClients⟩)

end Strict

/-! ## Salvage variant: validation and processing -/

namespace Salvage

/-- The salvage `validatePregnancy`: `CONFIG.required.pregnancy`
(birth, cares_after, cares_after_phone) with the non-empty-array check,
then — when `pregnancy.birth` is truthy — `CONFIG.required.birth` with the
non-empty-array check. -/
def validatePregnancy (pregnancy : JVal) : Option String :=
  match validateEntity pregnancy CONFIG.requiredPregnancySalvage true with
  | some f =>
    some ("Missing required field 'pregnancy." ++ f ++ "' (defined in CONFIG.required.pregnancy)")
  | none =>
    if truthy (getProp pregnancy "birth") then
      match validateEntity (getProp pregnancy "birth") CONFIG.requiredBirth true with
      | some f =>
        some ("Missing required field 'birth." ++ f ++ "' (defined in CONFIG.required.birth)")
      | none => none
    else none

/-- The salvage `validateClient`: only the client-level required-field check
(non-empty `pregnancies`). -/
def validateClient (client : JVal) : Option String :=
  match validateEntity client CONFIG.requiredClient true with
  | some f => some (clientReason f)
  | none => none

/-- One iteration of the salvage `processData` loop: (output clients,
skipped-client entries, skipped-pregnancy entries) this client contributes. -/
def clientStep (client : JVal) : List JVal × List SkippedClient × List SkippedPregnancy :=
  match validateClient client with
  | some reason => ([], [⟨getProp client "id", reason⟩], [])
  | none =>
    let pregs := iterElems (getProp client "pregnancies")
    let validPregnancies := pregs.filter (fun p => (validatePregnancy p).isNone)
    let skipped := pregs.filterMap (fun p =>
      match validatePregnancy p with
      | some r => some (⟨getProp client "id", getProp p "id", r⟩ : SkippedPregnancy)
      | none => none)
    if validPregnancies.isEmpty then
      ([], [⟨getProp client "id", "No valid pregnancies remaining after validation"⟩], skipped)
    else
      ([filterClient (setProp client "pregnancies" (.arr validPregnancies))], [], skipped)

/-- The salvage `processData` over an input array. -/
def processData (input : List JVal) : List JVal × SalvageResults :=
  match input with
  | [] => ([], ⟨0, 0, 0, [], 0, []⟩)
  | client :: rest =>
    let s := clientStep client
    let r := processData rest
    (s.1 ++ r.1,
     ⟨r.2.totalClients + 1,
      r.2.successCount + s.1.length,
      r.2.skippedClientsCount + s.2.1.length,
      s.2.1 ++ r.2.skippedClients,
      r.2.skippedPregnanciesCount + s.2.2.length,
      s.2.2 ++ r.2.skippedPregnancies⟩)

end Salvage

/-! ## Proof infrastructure: objects built by key-driven projection

`pickProperties` (on object-like input) and `filterDataEncr` both build
`.obj (K.filterMap fun k => if p k then some (k, g k) else none)` for a key
list `K`, a keep-predicate `p` and a value function `g`.  `pickedObj`
abstracts that shape; the lemmas below give its lookup, key-set, and update
behaviour. -/

def pickedObj (K : List String) (p : String → Bool) (g : String → JVal) : JVal :=
  .obj (K.filterMap (fun k => if p k then some (k, g k) else none))

/-- The shape shared by every filter body: read one key of `w`, and when the
condition holds replace that key's value by its transform. -/
def fieldStep (key : String) (cond : JVal → Bool) (tr : JVal → JVal) (w : JVal) : JVal :=
  if cond (getProp w key) then setProp w key (tr (getProp w key)) else w

/-! ## Whitelist-closure specification predicates (the property of claim C3,
stated over the output tree) -/

/-- Every key of `v` (no keys when `v` is not an object) lies in `allowed`. -/
def keysSubset (v : JVal) (allowed : List String) : Bool :=
  (objKeys v).all (fun k => allowed.contains k)

/-- Every key of a `data_encr` blob is allowed or matches a dynamic pattern. -/
def blobClosed (v : JVal) (allowed : List String) (pats : Option (List String)) : Bool :=
  (objKeys v).all (keepKey allowed pats)

/-- All elements of an array value satisfy `q` (vacuous for non-arrays). -/
def elemsAll (q : JVal → Bool) : JVal → Bool
  | .arr xs => xs.all q
  | _ => true

/-- A child of the output tree is whitelist-closed. -/
def closedChild (v : JVal) : Bool :=
  keysSubset v CONFIG.whitelistChild &&
  blobClosed (getProp v "data_encr") CONFIG.dataEncrChild none

/-- A care-after of the output tree is whitelist-closed (its blob may also
use the dynamic patterns). -/
def closedCareAfter (v : JVal) : Bool :=
  keysSubset v CONFIG.whitelistCareAfter &&
  blobClosed (getProp v "data_encr") CONFIG.dataEncrCareAfter
    (some CONFIG.careAfterDynamicPatterns)

/-- A care-after-phone of the output tree is whitelist-closed. -/
def closedCareAfterPhone (v : JVal) : Bool :=
  keysSubset v CONFIG.whitelistCareAfterPhone

/-- A birth of the output tree is whitelist-closed, including its children. -/
def closedBirth (v : JVal) : Bool :=
  keysSubset v CONFIG.whitelistBirth &&
  blobClosed (getProp v "data_encr") CONFIG.dataEncrBirth none &&
  elemsAll closedChild (getProp v "children")

/-- A pregnancy of the output tree is whitelist-closed, recursively. -/
def closedPregnancy (v : JVal) : Bool :=
  keysSubset v CONFIG.whitelistPregnancy &&
  blobClosed (getProp v "data_encr") CONFIG.dataEncrPregnancy none &&
  closedBirth (getProp v "birth") &&
  elemsAll closedCareAfter (getProp v "cares_after") &&
  elemsAll closedCareAfterPhone (getProp v "cares_after_phone")

/-- A client of the output tree is whitelist-closed, recursively. -/
def closedClient (v : JVal) : Bool :=
  keysSubset v CONFIG.whitelistClient &&
  elemsAll closedPregnancy (getProp v "pregnancies")

/-- Validity of one pregnancy under the strict per-pregnancy checks, as a
proposition (used to state claim C2's amended equivalence). -/
def StrictPregOk (p : JVal) : Prop :=
  validateEntity p CONFIG.requiredPregnancyStrict false = none ∧
  (truthy (getProp p "birth") = true →
    validateEntity (getProp p "birth") CONFIG.requiredBirth true = none)

/-- The length of an array value (0 for non-arrays); used to state the
salvage conservation of pregnancies. -/
def arrLen : JVal → Nat
  | .arr ys => ys.length
  | _ => 0

/-- The skipped-pregnancy entries one client's pregnancies produce. -/
def skippedEntriesOf (cid : JVal) (xs : List JVal) : List SkippedPregnancy :=
  xs.filterMap (fun p =>
    match Salvage.validatePregnancy p with
    | some r => some ⟨cid, getProp p "id", r⟩
    | none => none)

/-! ## Concrete example records (witness inputs) -/

/-- A pregnancy valid under both variants (birth with one child, one
care-after and one care-after-phone record). -/
def exPregGood : JVal :=
  .obj [("id", .num 11),
    ("birth", .obj [("id", .num 100), ("children", .arr [.obj [("id", .num 1000)]])]),
    ("cares_after", .arr [.obj [("id", .num 7)]]),
    ("cares_after_phone", .arr [.obj [("id", .num 8)]])]

/-- A pregnancy missing `cares_after` (invalid in salvage mode). -/
def exPregBad : JVal :=
  .obj [("id", .num 12),
    ("birth", .obj [("id", .num 101), ("children", .arr [.obj [("id", .num 1001)]])])]

/-- A client with one invalid and one valid pregnancy (salvage scenario B). -/
def exClientB : JVal := .obj [("id", .num 3), ("pregnancies", .arr [exPregBad, exPregGood])]

/-- A strict-mode-valid pregnancy. -/
def exPregStrict : JVal :=
  .obj [("id", .num 10),
    ("birth", .obj [("id", .num 100), ("children", .arr [.obj [("id", .num 1000)]])])]

/-- A strict-mode-valid client (scenario A). -/
def exClientA : JVal := .obj [("id", .num 1), ("pregnancies", .arr [exPregStrict])]

theorem lookup_pickedObj (K : List String) (p : String → Bool) (g : String → JVal)
    (key : String) :
    lookupField (K.filterMap (fun k => if p k then some (k, g k) else none)) key
      = if key ∈ K ∧ p key = true then some (g key) else none := by
  induction K with
  | nil => simp [lookupField]
  | cons k K ih =>
    simp only [List.filterMap_cons]
    by_cases hpk : p k = true
    · rw [if_pos hpk]
      by_cases hk : k = key
      · subst hk
        simp [lookupField, hpk]
      · have hk2 : ¬key = k := fun h => hk h.symm
        have hbeq : (k == key) = false := by simp [hk]
        simp [lookupField, hbeq, ih, List.mem_cons, hk2]
    · have hpk' : p k = false := by simpa using hpk
      rw [if_neg (by simp [hpk'])]
      rw [ih]
      by_cases hk : k = key
      · subst hk
        simp [hpk']
      · have hk2 : ¬key = k := fun h => hk h.symm
        simp [List.mem_cons, hk2]

theorem getProp_pickedObj (K : List String) (p : String → Bool) (g : String → JVal)
    (key : String) :
    getProp (pickedObj K p g) key
      = if key ∈ K ∧ p key = true then g key else .undef := by
  have h0 : getProp (pickedObj K p g) key
      = (lookupField (K.filterMap (fun k => if p k then some (k, g k) else none)) key).getD
          .undef := rfl
  rw [h0, lookup_pickedObj]
  by_cases h : key ∈ K ∧ p key = true <;> simp [h]

theorem anyKey_filterMap (K : List String) (p : String → Bool) (g : String → JVal)
    (key : String) :
    ((K.filterMap (fun k => if p k then some (k, g k) else none)).any
        (fun f => f.1 == key))
      = decide (key ∈ K ∧ p key = true) := by
  induction K with
  | nil => simp
  | cons k K ih =>
    rw [List.filterMap_cons]
    by_cases hpk : p k = true
    · rw [if_pos hpk, List.any_cons]
      by_cases hk : k = key
      · subst hk
        simp [hpk]
      · have hk2 : ¬key = k := fun h => hk h.symm
        have hbeq : (k == key) = false := by simp [hk]
        rw [ih]
        simp [hbeq, List.mem_cons, hk2]
    · have hpk' : p k = false := by simpa using hpk
      rw [if_neg (by simp [hpk']), ih]
      by_cases hk : k = key
      · subst hk
        simp [hpk']
      · have hk2 : ¬key = k := fun h => hk h.symm
        simp [List.mem_cons, hk2]

theorem mapFst_filterMap (K : List String) (p : String → Bool) (g : String → JVal) :
    (K.filterMap (fun k => if p k then some (k, g k) else none)).map Prod.fst
      = K.filter p := by
  induction K with
  | nil => simp
  | cons k K ih =>
    rw [List.filterMap_cons, List.filter_cons]
    by_cases hpk : p k = true
    · rw [if_pos hpk, if_pos hpk, List.map_cons, ih]
    · have hpk' : p k = false := by simpa using hpk
      rw [if_neg (by simp [hpk']), if_neg (by simp [hpk']), ih]

theorem hasProp_pickedObj (K : List String) (p : String → Bool) (g : String → JVal)
    (key : String) :
    hasProp (pickedObj K p g) key = decide (key ∈ K ∧ p key = true) := by
  have h0 : hasProp (pickedObj K p g) key
      = (K.filterMap (fun k => if p k then some (k, g k) else none)).any
          (fun f => f.1 == key) := rfl
  rw [h0, anyKey_filterMap]

theorem objKeys_pickedObj (K : List String) (p : String → Bool) (g : String → JVal) :
    objKeys (pickedObj K p g) = K.filter p := by
  have h0 : objKeys (pickedObj K p g)
      = (K.filterMap (fun k => if p k then some (k, g k) else none)).map Prod.fst := rfl
  rw [h0, mapFst_filterMap]

theorem isObjLike_pickedObj (K : List String) (p : String → Bool) (g : String → JVal) :
    isObjLike (pickedObj K p g) = true := rfl

theorem truthy_pickedObj (K : List String) (p : String → Bool) (g : String → JVal) :
    truthy (pickedObj K p g) = true := rfl

theorem mapUpdate_filterMap (K : List String) (p : String → Bool) (g : String → JVal)
    (key : String) (v : JVal) :
    (K.filterMap (fun k => if p k then some (k, g k) else none)).map
        (fun f => if f.1 == key then (f.1, v) else f)
      = K.filterMap (fun k => if p k then some (k, if k == key then v else g k) else none) := by
  induction K with
  | nil => simp
  | cons k K ih =>
    rw [List.filterMap_cons, List.filterMap_cons]
    by_cases hpk : p k = true
    · rw [if_pos hpk, if_pos hpk, List.map_cons, ih]
      congr 1
      by_cases hk : k = key
      · subst hk
        simp
      · have hbeq : (k == key) = false := by simp [hk]
        simp [hbeq]
    · have hpk' : p k = false := by simpa using hpk
      rw [if_neg (by simp [hpk']), if_neg (by simp [hpk']), ih]

theorem setProp_pickedObj (K : List String) (p : String → Bool) (g : String → JVal)
    (key : String) (v : JVal) (hmem : key ∈ K) (hp : p key = true) :
    setProp (pickedObj K p g) key v
      = pickedObj K p (fun k => if k == key then v else g k) := by
  have hany : ((K.filterMap (fun k => if p k then some (k, g k) else none)).any
      (fun f => f.1 == key)) = true := by
    rw [anyKey_filterMap]
    exact decide_eq_true ⟨hmem, hp⟩
  have h0 : setProp (pickedObj K p g) key v
      = if ((K.filterMap (fun k => if p k then some (k, g k) else none)).any
            (fun f => f.1 == key)) = true
        then JVal.obj ((K.filterMap (fun k => if p k then some (k, g k) else none)).map
            (fun f => if f.1 == key then (f.1, v) else f))
        else JVal.obj ((K.filterMap (fun k => if p k then some (k, g k) else none))
            ++ [(key, v)]) := rfl
  rw [h0, if_pos hany]
  unfold pickedObj
  congr 1
  exact mapUpdate_filterMap K p g key v

theorem pickedObj_congr (K : List String) (p q : String → Bool)
    (g h : String → JVal)
    (hpq : ∀ k ∈ K, p k = q k)
    (hgh : ∀ k ∈ K, p k = true → g k = h k) :
    pickedObj K p g = pickedObj K q h := by
  unfold pickedObj
  congr 1
  induction K with
  | nil => simp
  | cons k K ih =>
    have hpq' : p k = q k := hpq k (List.mem_cons_self _ _)
    by_cases hpk : p k = true
    · have hgh' : g k = h k := hgh k (List.mem_cons_self _ _) hpk
      simp only [List.filterMap_cons, hpk, hpq' ▸ hpk, hgh']
      rw [ih (fun x hx => hpq x (List.mem_cons_of_mem _ hx))
        (fun x hx hp => hgh x (List.mem_cons_of_mem _ hx) hp)]
    · have hpk' : p k = false := by simpa using hpk
      have hqk' : q k = false := hpq' ▸ hpk'
      simp only [List.filterMap_cons, hpk', hqk', Bool.false_eq_true, if_false]
      exact ih (fun x hx => hpq x (List.mem_cons_of_mem _ hx))
        (fun x hx hp => hgh x (List.mem_cons_of_mem _ hx) hp)

theorem pick_pickedObj (o : JVal) (K : List String) (h : isObjLike o = true) :
    pickProperties o K = pickedObj K (fun k => hasProp o k) (fun k => getProp o k) := by
  simp [pickProperties, pickedObj, h]

theorem pick_of_pickedObj (K : List String) (p : String → Bool) (g : String → JVal) :
    pickProperties (pickedObj K p g) K = pickedObj K p g := by
  rw [pick_pickedObj _ _ (isObjLike_pickedObj K p g)]
  apply pickedObj_congr
  · intro k hk
    rw [hasProp_pickedObj]
    by_cases hp : p k = true <;> simp [hk, hp]
  · intro k hk hp
    have hp' : p k = true := by
      have := hasProp_pickedObj K p g k
      rw [this] at hp
      exact (of_decide_eq_true hp).2
    rw [getProp_pickedObj]
    simp [hk, hp']

/-! ## filterDataEncr lemmas -/

theorem filterDataEncr_pickedObj (d : JVal) (a : List String)
    (ps : Option (List String)) (h : isObjLike d = true) :
    filterDataEncr d a ps = pickedObj (objKeys d) (keepKey a ps) (fun k => getProp d k) := by
  simp [filterDataEncr, pickedObj, h]

theorem filterDataEncr_pass (d : JVal) (a : List String)
    (ps : Option (List String)) (h : isObjLike d = false) :
    filterDataEncr d a ps = d := by
  simp [filterDataEncr, h]

theorem truthy_filterDataEncr (d : JVal) (a : List String)
    (ps : Option (List String)) (h : truthy d = true) :
    truthy (filterDataEncr d a ps) = true := by
  by_cases ho : isObjLike d = true
  · rw [filterDataEncr_pickedObj d a ps ho]
    exact truthy_pickedObj _ _ _
  · rw [filterDataEncr_pass d a ps (by simpa using ho)]
    exact h

theorem filterMap_eq_filter_map (K : List String) (p : String → Bool)
    (g : String → JVal) :
    K.filterMap (fun k => if p k then some (k, g k) else none)
      = (K.filter p).map (fun k => (k, g k)) := by
  induction K with
  | nil => simp
  | cons k K ih =>
    rw [List.filterMap_cons, List.filter_cons]
    by_cases hpk : p k = true
    · rw [if_pos hpk, if_pos hpk, List.map_cons, ih]
    · have hpk' : p k = false := by simpa using hpk
      rw [if_neg (by simp [hpk']), if_neg (by simp [hpk']), ih]

theorem pickedObj_filter_self (K : List String) (p : String → Bool)
    (g g' : String → JVal)
    (hg : ∀ k ∈ K, p k = true → g' k = g k) :
    pickedObj (K.filter p) p g' = pickedObj K p g := by
  unfold pickedObj
  congr 1
  rw [filterMap_eq_filter_map, filterMap_eq_filter_map, List.filter_filter]
  have hff : (K.filter fun k => p k && p k) = K.filter p := by
    apply List.filter_congr
    intro k _
    cases p k <;> rfl
  rw [hff]
  apply List.map_congr_left
  intro k hk
  have hkK : k ∈ K := (List.mem_filter.mp hk).1
  have hpk : p k = true := (List.mem_filter.mp hk).2
  rw [hg k hkK hpk]

theorem filterDataEncr_idem (d : JVal) (a : List String) (ps : Option (List String)) :
    filterDataEncr (filterDataEncr d a ps) a ps = filterDataEncr d a ps := by
  by_cases ho : isObjLike d = true
  · rw [filterDataEncr_pickedObj d a ps ho]
    rw [filterDataEncr_pickedObj _ a ps (isObjLike_pickedObj _ _ _)]
    rw [objKeys_pickedObj]
    apply pickedObj_filter_self
    intro k hk hpk
    rw [getProp_pickedObj]
    simp [hk, hpk]
  · rw [filterDataEncr_pass d a ps (by simpa using ho)]
    rw [filterDataEncr_pass d a ps (by simpa using ho)]

/-! ## The filters as conditional field-transform steps -/

theorem filterCareAfter_as_steps (careAfter : JVal) :
    filterCareAfter careAfter
      = fieldStep "data_encr" truthy
          (fun d => filterDataEncr d CONFIG.dataEncrCareAfter
            (some CONFIG.careAfterDynamicPatterns))
          (pickProperties careAfter CONFIG.whitelistCareAfter) := rfl

theorem filterChild_as_steps (child : JVal) :
    filterChild child
      = fieldStep "data_encr" truthy
          (fun d => filterDataEncr d CONFIG.dataEncrChild none)
          (pickProperties child CONFIG.whitelistChild) := rfl

theorem filterBirth_as_steps (birth : JVal) :
    filterBirth birth
      = if truthy birth = false then .null
        else
          fieldStep "children" (fun v => truthy v && isArr v) (mapArr filterChild)
            (fieldStep "data_encr" truthy
              (fun d => filterDataEncr d CONFIG.dataEncrBirth none)
              (pickProperties birth CONFIG.whitelistBirth)) := rfl

theorem filterPregnancy_as_steps (pregnancy : JVal) :
    filterPregnancy pregnancy
      = fieldStep "cares_after_phone" (fun v => truthy v && isArr v)
          (mapArr filterCareAfterPhone)
          (fieldStep "cares_after" (fun v => truthy v && isArr v) (mapArr filterCareAfter)
            (fieldStep "birth" truthy filterBirth
              (fieldStep "data_encr" truthy
                (fun d => filterDataEncr d CONFIG.dataEncrPregnancy none)
                (pickProperties pregnancy CONFIG.whitelistPregnancy)))) := rfl

theorem filterClient_as_steps (client : JVal) :
    filterClient client
      = fieldStep "pregnancies" (fun v => truthy v && isArr v) (mapArr filterPregnancy)
          (pickProperties client CONFIG.whitelistClient) := rfl

/-! ## Generic lemmas about fieldStep on pickedObj -/

theorem pickProperties_not_obj (v : JVal) (K : List String) (h : isObjLike v = false) :
    pickProperties v K = v := by
  simp [pickProperties, h]

theorem pickProperties_idem (o : JVal) (K : List String) :
    pickProperties (pickProperties o K) K = pickProperties o K := by
  by_cases h : isObjLike o = true
  · rw [pick_pickedObj o K h, pick_of_pickedObj]
  · rw [pickProperties_not_obj o K (by simpa using h),
      pickProperties_not_obj o K (by simpa using h)]

theorem getProp_undef_nonObjLike (v : JVal) (key : String)
    (hv : isObjLike v = false)
    (hlen : (key == "length") = false)
    (hidx : parseCanonIndex key = none) :
    getProp v key = .undef := by
  cases v with
  | str s =>
    show (if key == "length" then _ else _) = _
    rw [if_neg (by simp [hlen])]
    simp [canonIndex, hidx]
  | arr xs => simp [isObjLike, truthy, typeofObject] at hv
  | obj fields => simp [isObjLike, truthy, typeofObject] at hv
  | null => rfl
  | undef => rfl
  | bool b => rfl
  | num n => rfl

theorem pickedObj_update_self (K : List String) (p : String → Bool) (g : String → JVal)
    (key : String) :
    pickedObj K p (fun k => if k == key then g key else g k) = pickedObj K p g := by
  apply pickedObj_congr
  · intro k _
    rfl
  · intro k _ _
    show (if k == key then g key else g k) = g k
    by_cases hk : (k == key) = true
    · have hk' : k = key := by simpa using hk
      subst hk'
      simp
    · simp only [Bool.not_eq_true] at hk
      simp [hk]

theorem fieldStep_pack (K : List String) (p : String → Bool) (g : String → JVal)
    (key : String) (cond : JVal → Bool) (tr : JVal → JVal)
    (hundef : cond .undef = false) :
    ∃ g2 : String → JVal,
      fieldStep key cond tr (pickedObj K p g) = pickedObj K p g2
      ∧ (∀ k', (k' == key) = false →
          getProp (pickedObj K p g2) k' = getProp (pickedObj K p g) k')
      ∧ (cond (getProp (pickedObj K p g2) key) = false
         ∨ ∃ x, cond x = true ∧ getProp (pickedObj K p g2) key = tr x) := by
  by_cases hcond : cond (getProp (pickedObj K p g) key) = true
  · have hpres : key ∈ K ∧ p key = true := by
      by_contra hnot
      rw [getProp_pickedObj, if_neg hnot] at hcond
      rw [hundef] at hcond
      exact absurd hcond (by simp)
    refine ⟨fun k => if k == key then tr (getProp (pickedObj K p g) key) else g k, ?_, ?_, ?_⟩
    · unfold fieldStep
      rw [if_pos hcond, setProp_pickedObj K p g key _ hpres.1 hpres.2]
    · intro k' hk'
      by_cases hm : k' ∈ K ∧ p k' = true
      · rw [getProp_pickedObj, if_pos hm]
        simp only [hk', Bool.false_eq_true, if_false]
        rw [getProp_pickedObj, if_pos hm]
      · rw [getProp_pickedObj, if_neg hm]
        rw [getProp_pickedObj, if_neg hm]
    · right
      refine ⟨getProp (pickedObj K p g) key, hcond, ?_⟩
      rw [getProp_pickedObj, if_pos hpres]
      simp
  · refine ⟨g, ?_, fun _ _ => rfl, Or.inl (by simpa using hcond)⟩
    unfold fieldStep
    rw [if_neg hcond]

theorem fieldStep_fix (K : List String) (p : String → Bool) (g : String → JVal)
    (key : String) (cond : JVal → Bool) (tr : JVal → JVal)
    (hundef : cond .undef = false)
    (hcondtr : ∀ x, cond x = true → cond (tr x) = true)
    (htridem : ∀ x, cond x = true → tr (tr x) = tr x)
    (hdone : cond (getProp (pickedObj K p g) key) = false
      ∨ ∃ x, cond x = true ∧ getProp (pickedObj K p g) key = tr x) :
    fieldStep key cond tr (pickedObj K p g) = pickedObj K p g := by
  rcases hdone with hoff | ⟨x, hx, hval⟩
  · unfold fieldStep
    rw [if_neg (by simp [hoff])]
  · have hcond2 : cond (getProp (pickedObj K p g) key) = true := by
      rw [hval]
      exact hcondtr x hx
    have hpres : key ∈ K ∧ p key = true := by
      by_contra hnot
      have hu : getProp (pickedObj K p g) key = .undef := by
        rw [getProp_pickedObj, if_neg hnot]
      rw [hu, hundef] at hcond2
      exact absurd hcond2 (by simp)
    have h1 : tr (getProp (pickedObj K p g) key) = getProp (pickedObj K p g) key := by
      rw [hval, htridem x hx]
    have hg : getProp (pickedObj K p g) key = g key := by
      rw [getProp_pickedObj, if_pos hpres]
    unfold fieldStep
    rw [if_pos hcond2, h1, hg, setProp_pickedObj K p g key (g key) hpres.1 hpres.2,
      pickedObj_update_self]

/-! ## Idempotence of the filters -/

theorem condArr_mapArr (f : JVal → JVal) (x : JVal)
    (h : (truthy x && isArr x) = true) :
    (truthy (mapArr f x) && isArr (mapArr f x)) = true := by
  cases x <;> simp_all [mapArr, truthy, isArr]

theorem mapArr_idem (f : JVal → JVal) (hf : ∀ a, f (f a) = f a) (x : JVal) :
    mapArr f (mapArr f x) = mapArr f x := by
  cases x with
  | arr xs =>
    show JVal.arr ((xs.map f).map f) = JVal.arr (xs.map f)
    rw [List.map_map]
    congr 1
    apply List.map_congr_left
    intro a _
    exact hf a
  | null => rfl
  | undef => rfl
  | bool b => rfl
  | num n => rfl
  | str s => rfl
  | obj fields => rfl

theorem filterCareAfterPhone_idem (v : JVal) :
    filterCareAfterPhone (filterCareAfterPhone v) = filterCareAfterPhone v :=
  pickProperties_idem v _

theorem filterChild_not_obj (v : JVal) (h : isObjLike v = false) :
    filterChild v = v := by
  rw [filterChild_as_steps, pickProperties_not_obj v _ h]
  unfold fieldStep
  rw [getProp_undef_nonObjLike v "data_encr" h (by decide) rfl]
  simp [truthy]

theorem filterChild_idem (v : JVal) : filterChild (filterChild v) = filterChild v := by
  by_cases h : isObjLike v = true
  · rw [filterChild_as_steps v, pick_pickedObj v _ h]
    obtain ⟨g2, heq, hoff, hdone⟩ := fieldStep_pack CONFIG.whitelistChild
      (fun k => hasProp v k) (fun k => getProp v k) "data_encr"
      truthy (fun d => filterDataEncr d CONFIG.dataEncrChild none) rfl
    rw [heq, filterChild_as_steps, pick_of_pickedObj]
    exact fieldStep_fix _ _ _ _ _ _ rfl
      (fun x hx => truthy_filterDataEncr x _ _ hx)
      (fun x _ => filterDataEncr_idem x _ _) hdone
  · have h' : isObjLike v = false := by simpa using h
    rw [filterChild_not_obj v h', filterChild_not_obj v h']

theorem filterCareAfter_not_obj (v : JVal) (h : isObjLike v = false) :
    filterCareAfter v = v := by
  rw [filterCareAfter_as_steps, pickProperties_not_obj v _ h]
  unfold fieldStep
  rw [getProp_undef_nonObjLike v "data_encr" h (by decide) rfl]
  simp [truthy]

theorem filterCareAfter_idem (v : JVal) :
    filterCareAfter (filterCareAfter v) = filterCareAfter v := by
  by_cases h : isObjLike v = true
  · rw [filterCareAfter_as_steps v, pick_pickedObj v _ h]
    obtain ⟨g2, heq, hoff, hdone⟩ := fieldStep_pack CONFIG.whitelistCareAfter
      (fun k => hasProp v k) (fun k => getProp v k) "data_encr"
      truthy (fun d => filterDataEncr d CONFIG.dataEncrCareAfter
        (some CONFIG.careAfterDynamicPatterns)) rfl
    rw [heq, filterCareAfter_as_steps, pick_of_pickedObj]
    exact fieldStep_fix _ _ _ _ _ _ rfl
      (fun x hx => truthy_filterDataEncr x _ _ hx)
      (fun x _ => filterDataEncr_idem x _ _) hdone
  · have h' : isObjLike v = false := by simpa using h
    rw [filterCareAfter_not_obj v h', filterCareAfter_not_obj v h']

theorem filterBirth_not_obj (v : JVal) (h : isObjLike v = false) (ht : truthy v = true) :
    filterBirth v = v := by
  rw [filterBirth_as_steps, if_neg (by simp [ht]), pickProperties_not_obj v _ h]
  unfold fieldStep
  rw [getProp_undef_nonObjLike v "data_encr" h (by decide) rfl]
  simp only [truthy, Bool.false_eq_true, if_false]
  rw [getProp_undef_nonObjLike v "children" h (by decide) rfl]
  simp [truthy]

theorem filterBirth_falsy (v : JVal) (ht : truthy v = false) :
    filterBirth v = .null := by
  rw [filterBirth_as_steps, if_pos ht]

theorem truthy_filterBirth (v : JVal) (ht : truthy v = true) :
    truthy (filterBirth v) = true := by
  by_cases h : isObjLike v = true
  · rw [filterBirth_as_steps v, if_neg (by simp [ht]), pick_pickedObj v _ h]
    obtain ⟨g2, heq2, hoff2, hdone2⟩ := fieldStep_pack CONFIG.whitelistBirth
      (fun k => hasProp v k) (fun k => getProp v k) "data_encr"
      truthy (fun d => filterDataEncr d CONFIG.dataEncrBirth none) rfl
    rw [heq2]
    obtain ⟨g3, heq3, hoff3, hdone3⟩ := fieldStep_pack CONFIG.whitelistBirth
      (fun k => hasProp v k) g2 "children"
      (fun w => truthy w && isArr w) (mapArr filterChild) rfl
    rw [heq3]
    exact truthy_pickedObj _ _ _
  · rw [filterBirth_not_obj v (by simpa using h) ht]
    exact ht

theorem filterBirth_idem (v : JVal) : filterBirth (filterBirth v) = filterBirth v := by
  by_cases ht : truthy v = true
  · by_cases h : isObjLike v = true
    · rw [filterBirth_as_steps v, if_neg (by simp [ht]), pick_pickedObj v _ h]
      obtain ⟨g2, heq2, hoff2, hdone2⟩ := fieldStep_pack CONFIG.whitelistBirth
        (fun k => hasProp v k) (fun k => getProp v k) "data_encr"
        truthy (fun d => filterDataEncr d CONFIG.dataEncrBirth none) rfl
      rw [heq2]
      obtain ⟨g3, heq3, hoff3, hdone3⟩ := fieldStep_pack CONFIG.whitelistBirth
        (fun k => hasProp v k) g2 "children"
        (fun w => truthy w && isArr w) (mapArr filterChild) rfl
      rw [heq3]
      rw [filterBirth_as_steps, if_neg (by simp [truthy_pickedObj]), pick_of_pickedObj]
      have hdoneDE3 : truthy (getProp (pickedObj CONFIG.whitelistBirth
          (fun k => hasProp v k) g3) "data_encr") = false
          ∨ ∃ x, truthy x = true ∧ getProp (pickedObj CONFIG.whitelistBirth
            (fun k => hasProp v k) g3) "data_encr"
            = filterDataEncr x CONFIG.dataEncrBirth none := by
        rw [hoff3 "data_encr" (by decide)]
        exact hdone2
      rw [fieldStep_fix _ _ _ _ _ _ rfl
        (fun x hx => truthy_filterDataEncr x _ _ hx)
        (fun x _ => filterDataEncr_idem x _ _) hdoneDE3]
      exact fieldStep_fix _ _ _ _ _ _ rfl
        (fun x hx => condArr_mapArr filterChild x hx)
        (fun x _ => mapArr_idem filterChild filterChild_idem x) hdone3
    · have h' : isObjLike v = false := by simpa using h
      rw [filterBirth_not_obj v h' ht, filterBirth_not_obj v h' ht]
  · have ht' : truthy v = false := by simpa using ht
    rw [filterBirth_falsy v ht', filterBirth_falsy JVal.null rfl]

theorem filterPregnancy_not_obj (v : JVal) (h : isObjLike v = false) :
    filterPregnancy v = v := by
  rw [filterPregnancy_as_steps, pickProperties_not_obj v _ h]
  unfold fieldStep
  rw [getProp_undef_nonObjLike v "data_encr" h (by decide) rfl]
  simp only [truthy, Bool.false_eq_true, if_false]
  rw [getProp_undef_nonObjLike v "birth" h (by decide) rfl]
  simp only [truthy, Bool.false_eq_true, if_false]
  rw [getProp_undef_nonObjLike v "cares_after" h (by decide) rfl]
  simp only [truthy, Bool.false_and, Bool.false_eq_true, if_false]
  rw [getProp_undef_nonObjLike v "cares_after_phone" h (by decide) rfl]
  simp [truthy]

theorem filterPregnancy_idem (v : JVal) :
    filterPregnancy (filterPregnancy v) = filterPregnancy v := by
  by_cases h : isObjLike v = true
  · rw [filterPregnancy_as_steps v, pick_pickedObj v _ h]
    obtain ⟨g2, heq2, hoff2, hdone2⟩ := fieldStep_pack CONFIG.whitelistPregnancy
      (fun k => hasProp v k) (fun k => getProp v k) "data_encr"
      truthy (fun d => filterDataEncr d CONFIG.dataEncrPregnancy none) rfl
    rw [heq2]
    obtain ⟨g3, heq3, hoff3, hdone3⟩ := fieldStep_pack CONFIG.whitelistPregnancy
      (fun k => hasProp v k) g2 "birth" truthy filterBirth rfl
    rw [heq3]
    obtain ⟨g4, heq4, hoff4, hdone4⟩ := fieldStep_pack CONFIG.whitelistPregnancy
      (fun k => hasProp v k) g3 "cares_after"
      (fun w => truthy w && isArr w) (mapArr filterCareAfter) rfl
    rw [heq4]
    obtain ⟨g5, heq5, hoff5, hdone5⟩ := fieldStep_pack CONFIG.whitelistPregnancy
      (fun k => hasProp v k) g4 "cares_after_phone"
      (fun w => truthy w && isArr w) (mapArr filterCareAfterPhone) rfl
    rw [heq5]
    rw [filterPregnancy_as_steps, pick_of_pickedObj]
    have hdoneDE : truthy (getProp (pickedObj CONFIG.whitelistPregnancy
        (fun k => hasProp v k) g5) "data_encr") = false
        ∨ ∃ x, truthy x = true ∧ getProp (pickedObj CONFIG.whitelistPregnancy
          (fun k => hasProp v k) g5) "data_encr"
          = filterDataEncr x CONFIG.dataEncrPregnancy none := by
      rw [hoff5 "data_encr" (by decide), hoff4 "data_encr" (by decide),
        hoff3 "data_encr" (by decide)]
      exact hdone2
    have hdoneB : truthy (getProp (pickedObj CONFIG.whitelistPregnancy
        (fun k => hasProp v k) g5) "birth") = false
        ∨ ∃ x, truthy x = true ∧ getProp (pickedObj CONFIG.whitelistPregnancy
          (fun k => hasProp v k) g5) "birth" = filterBirth x := by
      rw [hoff5 "birth" (by decide), hoff4 "birth" (by decide)]
      exact hdone3
    have hdoneCA : (truthy (getProp (pickedObj CONFIG.whitelistPregnancy
        (fun k => hasProp v k) g5) "cares_after")
          && isArr (getProp (pickedObj CONFIG.whitelistPregnancy
            (fun k => hasProp v k) g5) "cares_after")) = false
        ∨ ∃ x, (truthy x && isArr x) = true ∧ getProp (pickedObj CONFIG.whitelistPregnancy
          (fun k => hasProp v k) g5) "cares_after" = mapArr filterCareAfter x := by
      rw [hoff5 "cares_after" (by decide)]
      exact hdone4
    rw [fieldStep_fix _ _ _ _ _ _ rfl
      (fun x hx => truthy_filterDataEncr x _ _ hx)
      (fun x _ => filterDataEncr_idem x _ _) hdoneDE]
    rw [fieldStep_fix _ _ _ _ _ _ rfl
      (fun x hx => truthy_filterBirth x hx)
      (fun x _ => filterBirth_idem x) hdoneB]
    rw [fieldStep_fix _ _ _ _ _ _ rfl
      (fun x hx => condArr_mapArr filterCareAfter x hx)
      (fun x _ => mapArr_idem filterCareAfter filterCareAfter_idem x) hdoneCA]
    exact fieldStep_fix _ _ _ _ _ _ rfl
      (fun x hx => condArr_mapArr filterCareAfterPhone x hx)
      (fun x _ => mapArr_idem filterCareAfterPhone filterCareAfterPhone_idem x) hdone5
  · have h' : isObjLike v = false := by simpa using h
    rw [filterPregnancy_not_obj v h', filterPregnancy_not_obj v h']

theorem filterClient_not_obj (v : JVal) (h : isObjLike v = false) :
    filterClient v = v := by
  rw [filterClient_as_steps, pickProperties_not_obj v _ h]
  unfold fieldStep
  rw [getProp_undef_nonObjLike v "pregnancies" h (by decide) rfl]
  simp [truthy]

theorem filterClient_idem (v : JVal) :
    filterClient (filterClient v) = filterClient v := by
  by_cases h : isObjLike v = true
  · rw [filterClient_as_steps v, pick_pickedObj v _ h]
    obtain ⟨g2, heq, hoff, hdone⟩ := fieldStep_pack CONFIG.whitelistClient
      (fun k => hasProp v k) (fun k => getProp v k) "pregnancies"
      (fun w => truthy w && isArr w) (mapArr filterPregnancy) rfl
    rw [heq, filterClient_as_steps, pick_of_pickedObj]
    exact fieldStep_fix _ _ _ _ _ _ rfl
      (fun x hx => condArr_mapArr filterPregnancy x hx)
      (fun x _ => mapArr_idem filterPregnancy filterPregnancy_idem x) hdone
  · have h' : isObjLike v = false := by simpa using h
    rw [filterClient_not_obj v h', filterClient_not_obj v h']

/-! ## Closure lemmas -/

theorem objKeys_nonObjLike (v : JVal) (h : isObjLike v = false) : objKeys v = [] := by
  cases v <;> simp_all [objKeys, isObjLike, truthy, typeofObject]

theorem keysSubset_pickedObj (K : List String) (p : String → Bool) (g : String → JVal) :
    keysSubset (pickedObj K p g) K = true := by
  unfold keysSubset
  rw [objKeys_pickedObj, List.all_eq_true]
  intro k hk
  have hm : k ∈ K := (List.mem_filter.mp hk).1
  simpa using hm

theorem keysSubset_nonObjLike (v : JVal) (K : List String) (h : isObjLike v = false) :
    keysSubset v K = true := by
  unfold keysSubset
  rw [objKeys_nonObjLike v h]
  rfl

theorem blobClosed_filterDataEncr (d : JVal) (a : List String) (ps : Option (List String)) :
    blobClosed (filterDataEncr d a ps) a ps = true := by
  by_cases h : isObjLike d = true
  · rw [filterDataEncr_pickedObj d a ps h]
    unfold blobClosed
    rw [objKeys_pickedObj, List.all_eq_true]
    intro k hk
    exact (List.mem_filter.mp hk).2
  · rw [filterDataEncr_pass d a ps (by simpa using h)]
    unfold blobClosed
    rw [objKeys_nonObjLike d (by simpa using h)]
    rfl

theorem blobClosed_falsy (v : JVal) (a : List String) (ps : Option (List String))
    (h : truthy v = false) :
    blobClosed v a ps = true := by
  cases v <;> simp_all [blobClosed, objKeys, truthy]

theorem elemsAll_falsy (q : JVal → Bool) (v : JVal) (h : truthy v = false) :
    elemsAll q v = true := by
  cases v <;> simp_all [elemsAll, truthy]

theorem elemsAll_of_condArr_false (q : JVal → Bool) (v : JVal)
    (h : (truthy v && isArr v) = false) :
    elemsAll q v = true := by
  cases v <;> simp_all [elemsAll, truthy, isArr]

theorem elemsAll_mapArr (q : JVal → Bool) (f : JVal → JVal)
    (hq : ∀ a, q (f a) = true) (x : JVal) (hx : isArr x = true) :
    elemsAll q (mapArr f x) = true := by
  cases x with
  | arr xs =>
    show (xs.map f).all q = true
    rw [List.all_eq_true]
    intro b hb
    obtain ⟨a, _, rfl⟩ := List.mem_map.mp hb
    exact hq a
  | null => rfl
  | undef => rfl
  | bool b => simp [isArr] at hx
  | num n => simp [isArr] at hx
  | str s => simp [isArr] at hx
  | obj fields => simp [isArr] at hx

theorem closedChild_filterChild (v : JVal) : closedChild (filterChild v) = true := by
  by_cases h : isObjLike v = true
  · rw [filterChild_as_steps v, pick_pickedObj v _ h]
    obtain ⟨g2, heq, hoff, hdone⟩ := fieldStep_pack CONFIG.whitelistChild
      (fun k => hasProp v k) (fun k => getProp v k) "data_encr"
      truthy (fun d => filterDataEncr d CONFIG.dataEncrChild none) rfl
    rw [heq]
    unfold closedChild
    simp only [keysSubset_pickedObj, Bool.true_and]
    rcases hdone with hf | ⟨x, _, hval⟩
    · exact blobClosed_falsy _ _ _ hf
    · rw [hval]
      exact blobClosed_filterDataEncr x _ _
  · have h' : isObjLike v = false := by simpa using h
    rw [filterChild_not_obj v h']
    unfold closedChild
    rw [keysSubset_nonObjLike v _ h',
      getProp_undef_nonObjLike v "data_encr" h' (by decide) rfl]
    rfl

theorem closedCareAfter_filterCareAfter (v : JVal) :
    closedCareAfter (filterCareAfter v) = true := by
  by_cases h : isObjLike v = true
  · rw [filterCareAfter_as_steps v, pick_pickedObj v _ h]
    obtain ⟨g2, heq, hoff, hdone⟩ := fieldStep_pack CONFIG.whitelistCareAfter
      (fun k => hasProp v k) (fun k => getProp v k) "data_encr"
      truthy (fun d => filterDataEncr d CONFIG.dataEncrCareAfter
        (some CONFIG.careAfterDynamicPatterns)) rfl
    rw [heq]
    unfold closedCareAfter
    simp only [keysSubset_pickedObj, Bool.true_and]
    rcases hdone with hf | ⟨x, _, hval⟩
    · exact blobClosed_falsy _ _ _ hf
    · rw [hval]
      exact blobClosed_filterDataEncr x _ _
  · have h' : isObjLike v = false := by simpa using h
    rw [filterCareAfter_not_obj v h']
    unfold closedCareAfter
    rw [keysSubset_nonObjLike v _ h',
      getProp_undef_nonObjLike v "data_encr" h' (by decide) rfl]
    rfl

theorem closedCareAfterPhone_filterCareAfterPhone (v : JVal) :
    closedCareAfterPhone (filterCareAfterPhone v) = true := by
  unfold closedCareAfterPhone filterCareAfterPhone
  by_cases h : isObjLike v = true
  · rw [pick_pickedObj v _ h]
    exact keysSubset_pickedObj _ _ _
  · rw [pickProperties_not_obj v _ (by simpa using h)]
    exact keysSubset_nonObjLike v _ (by simpa using h)

theorem closedBirth_falsy (v : JVal) (h : truthy v = false) : closedBirth v = true := by
  have hobj : isObjLike v = false := by
    unfold isObjLike
    rw [h]
    rfl
  unfold closedBirth
  rw [keysSubset_nonObjLike v _ hobj,
    getProp_undef_nonObjLike v "data_encr" hobj (by decide) rfl,
    getProp_undef_nonObjLike v "children" hobj (by decide) rfl]
  rfl

theorem closedBirth_filterBirth (v : JVal) : closedBirth (filterBirth v) = true := by
  by_cases ht : truthy v = true
  · by_cases h : isObjLike v = true
    · rw [filterBirth_as_steps v, if_neg (by simp [ht]), pick_pickedObj v _ h]
      obtain ⟨g2, heq2, hoff2, hdone2⟩ := fieldStep_pack CONFIG.whitelistBirth
        (fun k => hasProp v k) (fun k => getProp v k) "data_encr"
        truthy (fun d => filterDataEncr d CONFIG.dataEncrBirth none) rfl
      rw [heq2]
      obtain ⟨g3, heq3, hoff3, hdone3⟩ := fieldStep_pack CONFIG.whitelistBirth
        (fun k => hasProp v k) g2 "children"
        (fun w => truthy w && isArr w) (mapArr filterChild) rfl
      rw [heq3]
      unfold closedBirth
      simp only [keysSubset_pickedObj, Bool.true_and]
      have hblob : blobClosed (getProp (pickedObj CONFIG.whitelistBirth
          (fun k => hasProp v k) g3) "data_encr") CONFIG.dataEncrBirth none = true := by
        rw [hoff3 "data_encr" (by decide)]
        rcases hdone2 with hf | ⟨x, _, hval⟩
        · exact blobClosed_falsy _ _ _ hf
        · rw [hval]
          exact blobClosed_filterDataEncr x _ _
      have hch : elemsAll closedChild (getProp (pickedObj CONFIG.whitelistBirth
          (fun k => hasProp v k) g3) "children") = true := by
        rcases hdone3 with hf | ⟨x, hx, hval⟩
        · exact elemsAll_of_condArr_false _ _ hf
        · rw [hval]
          exact elemsAll_mapArr _ _ closedChild_filterChild x
            (Bool.and_elim_right hx)
      rw [hblob, hch]
      rfl
    · have h' : isObjLike v = false := by simpa using h
      rw [filterBirth_not_obj v h' ht]
      unfold closedBirth
      rw [keysSubset_nonObjLike v _ h',
        getProp_undef_nonObjLike v "data_encr" h' (by decide) rfl,
        getProp_undef_nonObjLike v "children" h' (by decide) rfl]
      rfl
  · rw [filterBirth_falsy v (by simpa using ht)]
    exact closedBirth_falsy .null rfl

theorem closedPregnancy_filterPregnancy (v : JVal) :
    closedPregnancy (filterPregnancy v) = true := by
  by_cases h : isObjLike v = true
  · rw [filterPregnancy_as_steps v, pick_pickedObj v _ h]
    obtain ⟨g2, heq2, hoff2, hdone2⟩ := fieldStep_pack CONFIG.whitelistPregnancy
      (fun k => hasProp v k) (fun k => getProp v k) "data_encr"
      truthy (fun d => filterDataEncr d CONFIG.dataEncrPregnancy none) rfl
    rw [heq2]
    obtain ⟨g3, heq3, hoff3, hdone3⟩ := fieldStep_pack CONFIG.whitelistPregnancy
      (fun k => hasProp v k) g2 "birth" truthy filterBirth rfl
    rw [heq3]
    obtain ⟨g4, heq4, hoff4, hdone4⟩ := fieldStep_pack CONFIG.whitelistPregnancy
      (fun k => hasProp v k) g3 "cares_after"
      (fun w => truthy w && isArr w) (mapArr filterCareAfter) rfl
    rw [heq4]
    obtain ⟨g5, heq5, hoff5, hdone5⟩ := fieldStep_pack CONFIG.whitelistPregnancy
      (fun k => hasProp v k) g4 "cares_after_phone"
      (fun w => truthy w && isArr w) (mapArr filterCareAfterPhone) rfl
    rw [heq5]
    unfold closedPregnancy
    simp only [keysSubset_pickedObj, Bool.true_and]
    have hblob : blobClosed (getProp (pickedObj CONFIG.whitelistPregnancy
        (fun k => hasProp v k) g5) "data_encr") CONFIG.dataEncrPregnancy none = true := by
      rw [hoff5 "data_encr" (by decide), hoff4 "data_encr" (by decide),
        hoff3 "data_encr" (by decide)]
      rcases hdone2 with hf | ⟨x, _, hval⟩
      · exact blobClosed_falsy _ _ _ hf
      · rw [hval]
        exact blobClosed_filterDataEncr x _ _
    have hb : closedBirth (getProp (pickedObj CONFIG.whitelistPregnancy
        (fun k => hasProp v k) g5) "birth") = true := by
      rw [hoff5 "birth" (by decide), hoff4 "birth" (by decide)]
      rcases hdone3 with hf | ⟨x, _, hval⟩
      · exact closedBirth_falsy _ hf
      · rw [hval]
        exact closedBirth_filterBirth x
    have hca : elemsAll closedCareAfter (getProp (pickedObj CONFIG.whitelistPregnancy
        (fun k => hasProp v k) g5) "cares_after") = true := by
      rw [hoff5 "cares_after" (by decide)]
      rcases hdone4 with hf | ⟨x, hx, hval⟩
      · exact elemsAll_of_condArr_false _ _ hf
      · rw [hval]
        exact elemsAll_mapArr _ _ closedCareAfter_filterCareAfter x
          (Bool.and_elim_right hx)
    have hcp : elemsAll closedCareAfterPhone (getProp (pickedObj CONFIG.whitelistPregnancy
        (fun k => hasProp v k) g5) "cares_after_phone") = true := by
      rcases hdone5 with hf | ⟨x, hx, hval⟩
      · exact elemsAll_of_condArr_false _ _ hf
      · rw [hval]
        exact elemsAll_mapArr _ _ closedCareAfterPhone_filterCareAfterPhone x
          (Bool.and_elim_right hx)
    rw [hblob, hb, hca, hcp]
    rfl
  · have h' : isObjLike v = false := by simpa using h
    rw [filterPregnancy_not_obj v h']
    unfold closedPregnancy
    rw [keysSubset_nonObjLike v _ h',
      getProp_undef_nonObjLike v "data_encr" h' (by decide) rfl,
      getProp_undef_nonObjLike v "birth" h' (by decide) rfl,
      getProp_undef_nonObjLike v "cares_after" h' (by decide) rfl,
      getProp_undef_nonObjLike v "cares_after_phone" h' (by decide) rfl]
    rfl

theorem closedClient_filterClient (v : JVal) : closedClient (filterClient v) = true := by
  by_cases h : isObjLike v = true
  · rw [filterClient_as_steps v, pick_pickedObj v _ h]
    obtain ⟨g2, heq, hoff, hdone⟩ := fieldStep_pack CONFIG.whitelistClient
      (fun k => hasProp v k) (fun k => getProp v k) "pregnancies"
      (fun w => truthy w && isArr w) (mapArr filterPregnancy) rfl
    rw [heq]
    unfold closedClient
    simp only [keysSubset_pickedObj, Bool.true_and]
    rcases hdone with hf | ⟨x, hx, hval⟩
    · exact elemsAll_of_condArr_false _ _ hf
    · rw [hval]
      exact elemsAll_mapArr _ _ closedPregnancy_filterPregnancy x
        (Bool.and_elim_right hx)
  · have h' : isObjLike v = false := by simpa using h
    rw [filterClient_not_obj v h']
    unfold closedClient
    rw [keysSubset_nonObjLike v _ h',
      getProp_undef_nonObjLike v "pregnancies" h' (by decide) rfl]
    rfl

/-! ## Validation lemmas -/

theorem isValidValue_false_iff (v : JVal) (c : Bool) :
    isValidValue v c = false ↔ (isNullish v = true ∨ (c = true ∧ isEmptyArr v = true)) := by
  unfold isValidValue
  cases hn : isNullish v <;> cases c <;> cases he : isEmptyArr v <;> simp_all

theorem validateEntity_first_failure (e : JVal) (c : Bool) (pre : List String) (f : String)
    (post : List String)
    (hpre : ∀ g ∈ pre, isValidValue (getProp e g) c = true)
    (hf : isValidValue (getProp e f) c = false) :
    validateEntity e (pre ++ f :: post) c = some f := by
  induction pre with
  | nil =>
    show (if isValidValue (getProp e f) c = false then some f else _) = some f
    rw [if_pos hf]
  | cons g pre ih =>
    show (if isValidValue (getProp e g) c = false then some g else
      validateEntity e (pre ++ f :: post) c) = some f
    have hg : isValidValue (getProp e g) c = true := hpre g (List.mem_cons_self _ _)
    rw [if_neg (by simp [hg])]
    exact ih (fun x hx => hpre x (List.mem_cons_of_mem _ hx))

theorem validateEntity_none_iff (e : JVal) (fs : List String) (c : Bool) :
    validateEntity e fs c = none ↔ ∀ f ∈ fs, isValidValue (getProp e f) c = true := by
  induction fs with
  | nil => simp [validateEntity]
  | cons f fs ih =>
    show (if isValidValue (getProp e f) c = false then some f else validateEntity e fs c)
        = none ↔ _
    by_cases hv : isValidValue (getProp e f) c = false
    · rw [if_pos hv]
      constructor
      · intro h
        exact absurd h (by simp)
      · intro h
        have := h f (List.mem_cons_self _ _)
        rw [this] at hv
        exact absurd hv (by simp)
    · have hv' : isValidValue (getProp e f) c = true := by
        cases h : isValidValue (getProp e f) c
        · exact absurd h hv
        · rfl
      rw [if_neg hv, ih]
      constructor
      · intro h g hg
        rcases List.mem_cons.mp hg with rfl | hg'
        · exact hv'
        · exact h g hg'
      · intro h g hg
        exact h g (List.mem_cons_of_mem _ hg)

/-! ## setProp lookup lemmas -/

theorem lookup_map_update (fields : List (String × JVal)) (key : String) (x : JVal)
    (h : fields.any (fun f => f.1 == key) = true) :
    lookupField (fields.map (fun f => if f.1 == key then (f.1, x) else f)) key = some x := by
  induction fields with
  | nil => simp at h
  | cons f fs ih =>
    by_cases hk : (f.1 == key) = true
    · rw [List.map_cons, if_pos hk]
      show (if f.1 == key then some x else _) = some x
      rw [if_pos hk]
    · have hk' : (f.1 == key) = false := by
        cases h2 : (f.1 == key)
        · rfl
        · exact absurd h2 hk
      rw [List.map_cons, if_neg (by simp [hk'])]
      show (if f.1 == key then some f.2 else _) = some x
      rw [if_neg (by simp [hk'])]
      apply ih
      rw [List.any_cons, hk'] at h
      simpa using h
    
theorem lookup_append_new (fields : List (String × JVal)) (key : String) (x : JVal) :
    lookupField (fields ++ [(key, x)]) key = some ((lookupField fields key).getD x) := by
  induction fields with
  | nil =>
    show (if key == key then some x else _) = some x
    rw [if_pos (by simp)]
  | cons f fs ih =>
    by_cases hk : (f.1 == key) = true
    · show (if f.1 == key then some f.2 else _) = _
      rw [if_pos hk]
      show _ = some ((if f.1 == key then some f.2 else lookupField fs key).getD x)
      rw [if_pos hk]
      rfl
    · show (if f.1 == key then some f.2 else lookupField (fs ++ [(key, x)]) key) = _
      rw [if_neg hk, ih]
      show _ = some ((if f.1 == key then some f.2 else lookupField fs key).getD x)
      rw [if_neg hk]

theorem getProp_setProp_self (v : JVal) (key : String) (x : JVal) :
    getProp (setProp v key x) key = x := by
  cases v with
  | obj fields =>
    show getProp (if fields.any (fun f => f.1 == key) = true then
        JVal.obj (fields.map (fun f => if f.1 == key then (f.1, x) else f))
      else JVal.obj (fields ++ [(key, x)])) key = x
    by_cases hany : fields.any (fun f => f.1 == key) = true
    · rw [if_pos hany]
      show (lookupField (fields.map (fun f => if f.1 == key then (f.1, x) else f)) key).getD
          JVal.undef = x
      rw [lookup_map_update fields key x hany]
      rfl
    · rw [if_neg hany]
      show (lookupField (fields ++ [(key, x)]) key).getD JVal.undef = x
      rw [lookup_append_new]
      have hnone : lookupField fields key = none := by
        induction fields with
        | nil => rfl
        | cons f fs ih =>
          rw [List.any_cons] at hany
          show (if f.1 == key then some f.2 else lookupField fs key) = none
          by_cases hk : (f.1 == key) = true
          · exact absurd (by rw [hk]; simp) hany
          · rw [if_neg hk]
            exact ih (fun hc => hany (by rw [hc]; simp))
      rw [hnone]
      rfl
  | null =>
    show (lookupField [(key, x)] key).getD JVal.undef = x
    show ((if key == key then some x else none).getD JVal.undef) = x
    rw [if_pos (by simp)]
    rfl
  | undef =>
    show ((if key == key then some x else none).getD JVal.undef) = x
    rw [if_pos (by simp)]
    rfl
  | bool b =>
    show ((if key == key then some x else none).getD JVal.undef) = x
    rw [if_pos (by simp)]
    rfl
  | num n =>
    show ((if key == key then some x else none).getD JVal.undef) = x
    rw [if_pos (by simp)]
    rfl
  | str s =>
    show ((if key == key then some x else none).getD JVal.undef) = x
    rw [if_pos (by simp)]
    rfl
  | arr xs =>
    show ((if key == key then some x else none).getD JVal.undef) = x
    rw [if_pos (by simp)]
    rfl

theorem hasProp_setProp_self (v : JVal) (key : String) (x : JVal) :
    hasProp (setProp v key x) key = true := by
  cases v with
  | obj fields =>
    show hasProp (if fields.any (fun f => f.1 == key) = true then
        JVal.obj (fields.map (fun f => if f.1 == key then (f.1, x) else f))
      else JVal.obj (fields ++ [(key, x)])) key = true
    by_cases hany : fields.any (fun f => f.1 == key) = true
    · rw [if_pos hany]
      show (fields.map (fun f => if f.1 == key then (f.1, x) else f)).any
          (fun f => f.1 == key) = true
      rw [List.any_eq_true]
      rw [List.any_eq_true] at hany
      obtain ⟨f, hf, hfk⟩ := hany
      refine ⟨if f.1 == key then (f.1, x) else f, List.mem_map_of_mem _ hf, ?_⟩
      rw [if_pos hfk]
      exact hfk
    · rw [if_neg hany]
      show (fields ++ [(key, x)]).any (fun f => f.1 == key) = true
      rw [List.any_append]
      simp
  | null => simp [setProp, hasProp]
  | undef => simp [setProp, hasProp]
  | bool b => simp [setProp, hasProp]
  | num n => simp [setProp, hasProp]
  | str s => simp [setProp, hasProp]
  | arr xs => simp [setProp, hasProp]

/-! ## Strict-variant loop characterization -/

theorem checkPregnanciesFrom_arr_none_iff (xs : List JVal) (r i : Nat) :
    Strict.checkPregnanciesFrom (.arr xs) r i = none ↔
      ∀ j, j < r → StrictPregOk (xs.getD (i + j) .undef) := by
  induction r generalizing i with
  | zero => simp [Strict.checkPregnanciesFrom]
  | succ r ih =>
    show (match validateEntity (xs.getD i .undef) CONFIG.requiredPregnancyStrict false with
      | some f => some (Strict.pregReason i (xs.getD i .undef) f)
      | none =>
        if truthy (getProp (xs.getD i .undef) "birth") = true then
          match validateEntity (getProp (xs.getD i .undef) "birth")
              CONFIG.requiredBirth true with
          | some f => some (Strict.birthReason i (xs.getD i .undef) f)
          | none => Strict.checkPregnanciesFrom (.arr xs) r (i + 1)
        else Strict.checkPregnanciesFrom (.arr xs) r (i + 1)) = none ↔ _
    cases hpv : validateEntity (xs.getD i .undef) CONFIG.requiredPregnancyStrict false with
    | some f =>
      simp only []
      constructor
      · intro h
        exact absurd h (by simp)
      · intro h
        have h0 := h 0 (Nat.succ_pos r)
        rw [Nat.add_zero] at h0
        have h1 := h0.1
        rw [hpv] at h1
        exact absurd h1 (by simp)
    | none =>
      by_cases hb : truthy (getProp (xs.getD i .undef) "birth") = true
      · rw [if_pos hb]
        cases hbv : validateEntity (getProp (xs.getD i .undef) "birth")
            CONFIG.requiredBirth true with
        | some f =>
          simp only []
          constructor
          · intro h
            exact absurd h (by simp)
          · intro h
            have h0 := h 0 (Nat.succ_pos r)
            rw [Nat.add_zero] at h0
            have h2 := h0.2 hb
            rw [hbv] at h2
            exact absurd h2 (by simp)
        | none =>
          simp only []
          rw [ih (i + 1)]
          constructor
          · intro h j hj
            cases j with
            | zero =>
              rw [Nat.add_zero]
              exact ⟨hpv, fun _ => hbv⟩
            | succ j =>
              have hthis := h j (Nat.lt_of_succ_lt_succ hj)
              have harith : i + 1 + j = i + (j + 1) := by omega
              rwa [harith] at hthis
          · intro h j hj
            have hthis := h (j + 1) (Nat.succ_lt_succ hj)
            have harith : i + (j + 1) = i + 1 + j := by omega
            rwa [harith] at hthis
      · rw [if_neg hb]
        rw [ih (i + 1)]
        have hb' : truthy (getProp (xs.getD i .undef) "birth") = false := by
          cases h2 : truthy (getProp (xs.getD i .undef) "birth")
          · rfl
          · exact absurd h2 hb
        constructor
        · intro h j hj
          cases j with
          | zero =>
            rw [Nat.add_zero]
            exact ⟨hpv, fun hc => absurd hc hb⟩
          | succ j =>
            have hthis := h j (Nat.lt_of_succ_lt_succ hj)
            have harith : i + 1 + j = i + (j + 1) := by omega
            rwa [harith] at hthis
        · intro h j hj
          have hthis := h (j + 1) (Nat.succ_lt_succ hj)
          have harith : i + (j + 1) = i + 1 + j := by omega
          rwa [harith] at hthis

theorem forall_getD_iff_mem (xs : List JVal) (P : JVal → Prop) :
    (∀ j, j < xs.length → P (xs.getD j .undef)) ↔ ∀ p ∈ xs, P p := by
  constructor
  · intro h p hp
    obtain ⟨i, hi, rfl⟩ := List.mem_iff_getElem.mp hp
    have := h i hi
    rwa [List.getD_eq_getElem xs .undef hi] at this
  · intro h j hj
    rw [List.getD_eq_getElem xs .undef hj]
    exact h _ (List.getElem_mem hj)

theorem strict_validateClient_none_iff (client : JVal) (xs : List JVal)
    (hp : getProp client "pregnancies" = .arr xs) :
    Strict.validateClient client = none ↔ (xs ≠ [] ∧ ∀ p ∈ xs, StrictPregOk p) := by
  show (match validateEntity client CONFIG.requiredClient true with
    | some f => some (clientReason f)
    | none =>
      Strict.checkPregnanciesFrom (getProp client "pregnancies")
        (Strict.loopLen (getProp client "pregnancies")) 0) = none ↔ _
  cases xs with
  | nil =>
    have hcv : validateEntity client CONFIG.requiredClient true = some "pregnancies" := by
      show (if isValidValue (getProp client "pregnancies") true = false then
        some "pregnancies" else _) = some "pregnancies"
      rw [hp]
      rfl
    rw [hcv]
    simp
  | cons x xs =>
    have hcv : validateEntity client CONFIG.requiredClient true = none := by
      show (if isValidValue (getProp client "pregnancies") true = false then
        some "pregnancies" else validateEntity client [] true) = none
      rw [hp]
      rfl
    rw [hcv]
    simp only []
    have hlen : Strict.loopLen (JVal.arr (x :: xs)) = (x :: xs).length := by
      show (match getProp (.arr (x :: xs)) "length" with
        | JVal.num n => n.toNat
        | _ => 0) = _
      show (Int.ofNat (x :: xs).length).toNat = _
      simp
    rw [hp, hlen, checkPregnanciesFrom_arr_none_iff]
    have hsimp : ∀ j, (0 + j) = j := fun j => Nat.zero_add j
    constructor
    · intro h
      refine ⟨by simp, ?_⟩
      rw [← forall_getD_iff_mem]
      intro j hj
      have := h j hj
      rwa [hsimp j] at this
    · rintro ⟨-, h⟩
      intro j hj
      rw [hsimp j]
      rw [← forall_getD_iff_mem] at h
      exact h j hj

/-! ## Pattern-matcher lemmas -/

theorem leadsWith_iff (pre k : List Char) :
    leadsWith pre k = true ↔ ∃ t, k = pre ++ t := by
  induction pre generalizing k with
  | nil =>
    simp [leadsWith]
  | cons a as ih =>
    cases k with
    | nil =>
      constructor
      · intro h
        exact absurd h (by simp [leadsWith])
      · rintro ⟨t, h⟩
        exact absurd h (by simp)
    | cons b bs =>
      show (a == b && leadsWith as bs) = true ↔ _
      rw [Bool.and_eq_true, beq_iff_eq, ih]
      constructor
      · rintro ⟨rfl, t, rfl⟩
        exact ⟨t, rfl⟩
      · rintro ⟨t, h⟩
        injection h with h1 h2
        exact ⟨h1.symm, t, h2⟩

theorem trailsWith_iff (suf k : List Char) :
    trailsWith suf k = true ↔ ∃ t, k = t ++ suf := by
  unfold trailsWith
  rw [leadsWith_iff]
  constructor
  · rintro ⟨t, h⟩
    refine ⟨t.reverse, ?_⟩
    have h2 := congrArg List.reverse h
    simpa using h2
  · rintro ⟨t, rfl⟩
    exact ⟨t.reverse, by simp⟩

theorem matchesWithSplit_iff (pre suf k : List Char) :
    matchesWithSplit pre suf k = true ↔
      ∃ mid, mid ≠ [] ∧ mid.all Char.isDigit = true ∧ k = pre ++ (mid ++ suf) := by
  unfold matchesWithSplit
  simp only [Bool.and_eq_true, decide_eq_true_eq]
  constructor
  · rintro ⟨⟨⟨hlead, htrail⟩, hlen⟩, hdig⟩
    obtain ⟨t, rfl⟩ := (leadsWith_iff pre _).mp hlead
    obtain ⟨t2, heq⟩ := (trailsWith_iff suf _).mp htrail
    rw [List.length_append] at hlen
    have htlen : suf.length < t.length := by omega
    have h2 : pre.length + t.length = t2.length + suf.length := by
      have h3 := congrArg List.length heq
      simpa [List.length_append] using h3
    have ht2 : t2.length = pre.length + (t.length - suf.length) := by omega
    have hkey : t.drop (t.length - suf.length) = suf := by
      calc t.drop (t.length - suf.length)
          = ((pre ++ t).drop pre.length).drop (t.length - suf.length) := by
            rw [List.drop_left]
        _ = (pre ++ t).drop (pre.length + (t.length - suf.length)) :=
            List.drop_drop _ _ _
        _ = (t2 ++ suf).drop (pre.length + (t.length - suf.length)) := by rw [heq]
        _ = (t2 ++ suf).drop t2.length := by rw [← ht2]
        _ = suf := List.drop_left _ _
    have hsplit2 : t.take (t.length - suf.length) ++ suf = t := by
      conv_rhs => rw [← List.take_append_drop (t.length - suf.length) t]
      rw [hkey]
    have hmidlen : (t.take (t.length - suf.length)).length = t.length - suf.length := by
      rw [List.length_take]
      omega
    have hne : t.take (t.length - suf.length) ≠ [] := by
      apply List.length_pos.mp
      rw [hmidlen]
      omega
    rw [List.drop_left] at hdig
    have harith : (pre ++ t).length - pre.length - suf.length = t.length - suf.length := by
      rw [List.length_append]
      omega
    rw [harith] at hdig
    refine ⟨t.take (t.length - suf.length), hne, hdig, ?_⟩
    rw [hsplit2]
  · rintro ⟨mid, hne, hdig, rfl⟩
    have hmidpos : 0 < mid.length := List.length_pos.mpr hne
    refine ⟨⟨⟨?_, ?_⟩, ?_⟩, ?_⟩
    · exact (leadsWith_iff pre _).mpr ⟨mid ++ suf, rfl⟩
    · exact (trailsWith_iff suf _).mpr ⟨pre ++ mid, by rw [List.append_assoc]⟩
    · simp only [List.length_append]
      omega
    · rw [List.drop_left]
      have harith : (pre ++ (mid ++ suf)).length - pre.length - suf.length = mid.length := by
        simp only [List.length_append]
        omega
      rw [harith, List.take_left]
      exact hdig

/-! ## Pipeline lemmas -/

theorem validateEntity_single (e : JVal) (f : String) (c : Bool) :
    validateEntity e [f] c
      = if isValidValue (getProp e f) c = false then some f else none := rfl

theorem salvage_validateClient_none_iff (client : JVal) :
    Salvage.validateClient client = none ↔
      isValidValue (getProp client "pregnancies") true = true := by
  show (match (if isValidValue (getProp client "pregnancies") true = false then
      some "pregnancies" else validateEntity client [] true) with
    | some f => some (clientReason f) | none => none) = none ↔ _
  by_cases hv : isValidValue (getProp client "pregnancies") true = false
  · rw [if_pos hv]
    constructor
    · intro h
      exact absurd h (by simp)
    · intro h
      rw [h] at hv
      exact absurd hv (by simp)
  · rw [if_neg hv]
    constructor
    · intro _
      cases h2 : isValidValue (getProp client "pregnancies") true
      · exact absurd h2 hv
      · rfl
    · intro _
      rfl

theorem salvage_validateClient_none (client : JVal) (xs : List JVal)
    (hp : getProp client "pregnancies" = .arr xs) (hne : xs ≠ []) :
    Salvage.validateClient client = none := by
  rw [salvage_validateClient_none_iff, hp]
  cases xs with
  | nil => exact absurd rfl hne
  | cons x xs => rfl

theorem salvage_clientStep_invalid (client : JVal) (r : String)
    (h : Salvage.validateClient client = some r) :
    Salvage.clientStep client = ([], [⟨getProp client "id", r⟩], []) := by
  unfold Salvage.clientStep
  rw [h]

theorem salvage_clientStep_valid (client : JVal) (xs : List JVal)
    (hp : getProp client "pregnancies" = .arr xs) (hne : xs ≠ []) :
    Salvage.clientStep client
      = (if (xs.filter (fun p => (Salvage.validatePregnancy p).isNone)).isEmpty then
           ([], [⟨getProp client "id", "No valid pregnancies remaining after validation"⟩],
            skippedEntriesOf (getProp client "id") xs)
         else
           ([filterClient (setProp client "pregnancies"
              (.arr (xs.filter (fun p => (Salvage.validatePregnancy p).isNone))))], [],
            skippedEntriesOf (getProp client "id") xs)) := by
  unfold Salvage.clientStep
  rw [salvage_validateClient_none client xs hp hne, hp]
  rfl

theorem isObjLike_setProp (v : JVal) (key : String) (x : JVal) :
    isObjLike (setProp v key x) = true := by
  cases v with
  | obj fields =>
    show isObjLike (if fields.any (fun f => f.1 == key) = true then
      JVal.obj (fields.map (fun f => if f.1 == key then (f.1, x) else f))
      else JVal.obj (fields ++ [(key, x)])) = true
    by_cases h : fields.any (fun f => f.1 == key) = true
    · rw [if_pos h]
      rfl
    · rw [if_neg h]
      rfl
  | null => rfl
  | undef => rfl
  | bool b => rfl
  | num n => rfl
  | str s => rfl
  | arr xs => rfl

theorem getProp_filterClient_setProp (client : JVal) (ys : List JVal) :
    getProp (filterClient (setProp client "pregnancies" (.arr ys))) "pregnancies"
      = .arr (ys.map filterPregnancy) := by
  rw [filterClient_as_steps,
    pick_pickedObj _ _ (isObjLike_setProp client "pregnancies" (.arr ys))]
  have hmem : "pregnancies" ∈ CONFIG.whitelistClient := by
    show "pregnancies" ∈ ["id", "pregnancies"]
    simp
  have hhp : hasProp (setProp client "pregnancies" (.arr ys)) "pregnancies" = true :=
    hasProp_setProp_self client "pregnancies" (.arr ys)
  have hgp : getProp (setProp client "pregnancies" (.arr ys)) "pregnancies" = .arr ys :=
    getProp_setProp_self client "pregnancies" (.arr ys)
  have hw : getProp (pickedObj CONFIG.whitelistClient
      (fun k => hasProp (setProp client "pregnancies" (.arr ys)) k)
      (fun k => getProp (setProp client "pregnancies" (.arr ys)) k)) "pregnancies"
      = .arr ys := by
    rw [getProp_pickedObj, if_pos ⟨hmem, hhp⟩, hgp]
  unfold fieldStep
  rw [hw]
  rw [if_pos (by rfl)]
  rw [getProp_setProp_self]
  rfl

theorem length_filter_add_not (xs : List JVal) (q : JVal → Bool) :
    (xs.filter q).length + (xs.filter (fun a => !q a)).length = xs.length := by
  induction xs with
  | nil => rfl
  | cons x xs ih =>
    rw [List.filter_cons, List.filter_cons]
    cases hq : q x <;> simp only [hq, Bool.not_false, Bool.not_true, if_pos, if_neg,
      Bool.false_eq_true, Bool.true_eq_false, if_false, if_true, List.length_cons] <;> omega

theorem length_skippedEntriesOf (cid : JVal) (xs : List JVal) :
    (skippedEntriesOf cid xs).length
      = (xs.filter (fun p => !(Salvage.validatePregnancy p).isNone)).length := by
  unfold skippedEntriesOf
  induction xs with
  | nil => rfl
  | cons x xs ih =>
    rw [List.filterMap_cons, List.filter_cons]
    cases h : Salvage.validatePregnancy x <;> simp [h, ih]

theorem salvage_processData_cons (c : JVal) (rest : List JVal) :
    Salvage.processData (c :: rest)
      = ((Salvage.clientStep c).1 ++ (Salvage.processData rest).1,
         ⟨(Salvage.processData rest).2.totalClients + 1,
          (Salvage.processData rest).2.successCount + (Salvage.clientStep c).1.length,
          (Salvage.processData rest).2.skippedClientsCount
            + (Salvage.clientStep c).2.1.length,
          (Salvage.clientStep c).2.1 ++ (Salvage.processData rest).2.skippedClients,
          (Salvage.processData rest).2.skippedPregnanciesCount
            + (Salvage.clientStep c).2.2.length,
          (Salvage.clientStep c).2.2 ++ (Salvage.processData rest).2.skippedPregnancies⟩) :=
  rfl

theorem strict_processData_cons (c : JVal) (rest : List JVal) :
    Strict.processData (c :: rest)
      = ((Strict.clientStep c).1 ++ (Strict.processData rest).1,
         ⟨(Strict.processData rest).2.totalClients + 1,
          (Strict.processData rest).2.successCount + (Strict.clientStep c).1.length,
          (Strict.processData rest).2.skippedCount + (Strict.clientStep c).2.length,
          (Strict.clientStep c).2 ++ (Strict.processData rest).2.skippedClients⟩) :=
  rfl

theorem strict_clientStep_one (client : JVal) :
    (Strict.clientStep client).1.length + (Strict.clientStep client).2.length = 1 := by
  unfold Strict.clientStep
  cases Strict.validateClient client <;> rfl

theorem salvage_clientStep_one (client : JVal) :
    (Salvage.clientStep client).1.length + (Salvage.clientStep client).2.1.length = 1 := by
  unfold Salvage.clientStep
  cases Salvage.validateClient client with
  | some r => rfl
  | none =>
    simp only []
    split <;> rfl

theorem strict_processData_counts (input : List JVal) :
    (Strict.processData input).2.totalClients = input.length
    ∧ (Strict.processData input).2.successCount + (Strict.processData input).2.skippedCount
        = (Strict.processData input).2.totalClients := by
  induction input with
  | nil => exact ⟨rfl, rfl⟩
  | cons c rest ih =>
    rw [strict_processData_cons]
    refine ⟨by simp [ih.1], ?_⟩
    have h1 := strict_clientStep_one c
    have h2 := ih.2
    simp only []
    omega

theorem salvage_processData_counts (input : List JVal) :
    (Salvage.processData input).2.totalClients = input.length
    ∧ (Salvage.processData input).2.successCount
        + (Salvage.processData input).2.skippedClientsCount
        = (Salvage.processData input).2.totalClients := by
  induction input with
  | nil => exact ⟨rfl, rfl⟩
  | cons c rest ih =>
    rw [salvage_processData_cons]
    refine ⟨by simp [ih.1], ?_⟩
    have h1 := salvage_clientStep_one c
    have h2 := ih.2
    simp only []
    omega

theorem salvage_processData_append (l1 l2 : List JVal) :
    (Salvage.processData (l1 ++ l2)).1
        = (Salvage.processData l1).1 ++ (Salvage.processData l2).1
    ∧ (Salvage.processData (l1 ++ l2)).2.skippedClients
        = (Salvage.processData l1).2.skippedClients
          ++ (Salvage.processData l2).2.skippedClients
    ∧ (Salvage.processData (l1 ++ l2)).2.skippedPregnancies
        = (Salvage.processData l1).2.skippedPregnancies
          ++ (Salvage.processData l2).2.skippedPregnancies := by
  induction l1 with
  | nil => exact ⟨rfl, rfl, rfl⟩
  | cons c l1 ih =>
    rw [List.cons_append, salvage_processData_cons, salvage_processData_cons]
    exact ⟨by simp [ih.1], by simp [ih.2.1], by simp [ih.2.2]⟩

theorem salvage_clientStep_preg_counts (client : JVal) (xs : List JVal)
    (hp : getProp client "pregnancies" = .arr xs) (hne : xs ≠ []) :
    (Salvage.clientStep client).2.2.length
      + ((Salvage.clientStep client).1.map (fun o => arrLen (getProp o "pregnancies"))).sum
      = xs.length := by
  rw [salvage_clientStep_valid client xs hp hne]
  by_cases he : (xs.filter (fun p => (Salvage.validatePregnancy p).isNone)).isEmpty = true
  · rw [if_pos he]
    simp only [List.map_nil, List.sum_nil, Nat.add_zero]
    rw [length_skippedEntriesOf]
    have h0 : (xs.filter (fun p => (Salvage.validatePregnancy p).isNone)).length = 0 := by
      rw [List.isEmpty_iff] at he
      rw [he]
      rfl
    have := length_filter_add_not xs (fun p => (Salvage.validatePregnancy p).isNone)
    omega
  · rw [if_neg he]
    simp only [List.map_cons, List.map_nil, List.sum_cons, List.sum_nil]
    rw [length_skippedEntriesOf, getProp_filterClient_setProp]
    show (xs.filter (fun p => !(Salvage.validatePregnancy p).isNone)).length
        + ((xs.filter (fun p => (Salvage.validatePregnancy p).isNone)).map
            filterPregnancy).length + 0 = xs.length
    rw [List.length_map]
    have := length_filter_add_not xs (fun p => (Salvage.validatePregnancy p).isNone)
    omega

theorem salvage_preg_conservation (input : List JVal)
    (h : ∀ c ∈ input, Salvage.validateClient c = none →
      isArr (getProp c "pregnancies") = true) :
    (Salvage.processData input).2.skippedPregnanciesCount
      + ((Salvage.processData input).1.map (fun o => arrLen (getProp o "pregnancies"))).sum
      = (input.map (fun c => if Salvage.validateClient c = none
          then arrLen (getProp c "pregnancies") else 0)).sum := by
  induction input with
  | nil => rfl
  | cons c rest ih =>
    rw [salvage_processData_cons, List.map_cons, List.sum_cons]
    simp only [List.map_append, List.sum_append]
    have hrest := ih (fun x hx => h x (List.mem_cons_of_mem _ hx))
    cases hv : Salvage.validateClient c with
    | some r =>
      rw [salvage_clientStep_invalid c r hv]
      simp only [List.length_nil, List.map_nil, List.sum_nil]
      rw [if_neg (by simp [hv])]
      omega
    | none =>
      have harr : isArr (getProp c "pregnancies") = true :=
        h c (List.mem_cons_self _ _) hv
      cases hgp : getProp c "pregnancies" with
      | arr xs =>
        have hne : xs ≠ [] := by
          have hvv := (salvage_validateClient_none_iff c).mp hv
          rw [hgp] at hvv
          cases xs with
          | nil => exact absurd hvv (by simp [isValidValue, isNullish, isEmptyArr])
          | cons a as => simp
        have hcounts := salvage_clientStep_preg_counts c xs hgp hne
        have hsimp : (if (none : Option String) = none then arrLen (JVal.arr xs) else 0)
            = xs.length := by
          rw [if_pos rfl]
          rfl
        rw [hsimp]
        omega
      | null => rw [hgp] at harr; exact absurd harr (by simp [isArr])
      | undef => rw [hgp] at harr; exact absurd harr (by simp [isArr])
      | bool b => rw [hgp] at harr; exact absurd harr (by simp [isArr])
      | num n => rw [hgp] at harr; exact absurd harr (by simp [isArr])
      | str s => rw [hgp] at harr; exact absurd harr (by simp [isArr])
      | obj fields => rw [hgp] at harr; exact absurd harr (by simp [isArr])

/-! ## Per-pregnancy validation characterization (salvage) -/

theorem isValidValue_true_iff (v : JVal) (c : Bool) :
    isValidValue v c = true ↔
      (isNullish v = false ∧ (c = true → isEmptyArr v = false)) := by
  cases hn : isNullish v <;> cases c <;> cases he : isEmptyArr v <;>
    simp_all [isValidValue]

theorem salvage_validatePregnancy_none_iff (p : JVal) :
    Salvage.validatePregnancy p = none ↔
      (isValidValue (getProp p "birth") true = true
       ∧ isValidValue (getProp p "cares_after") true = true
       ∧ isValidValue (getProp p "cares_after_phone") true = true
       ∧ (truthy (getProp p "birth") = true →
          isValidValue (getProp (getProp p "birth") "children") true = true)) := by
  unfold Salvage.validatePregnancy
  cases hv : validateEntity p CONFIG.requiredPregnancySalvage true with
  | some f =>
    simp only []
    constructor
    · intro h
      exact absurd h (by simp)
    · rintro ⟨hb, hca, hcp, -⟩
      have hnone : validateEntity p CONFIG.requiredPregnancySalvage true = none := by
        rw [validateEntity_none_iff]
        intro g hg
        have hg' : g = "birth" ∨ g = "cares_after" ∨ g = "cares_after_phone" := by
          have : g ∈ ["birth", "cares_after", "cares_after_phone"] := hg
          simpa using this
        rcases hg' with rfl | rfl | rfl
        · exact hb
        · exact hca
        · exact hcp
      rw [hnone] at hv
      exact absurd hv (by simp)
  | none =>
    have hall := (validateEntity_none_iff p CONFIG.requiredPregnancySalvage true).mp hv
    have hb : isValidValue (getProp p "birth") true = true := by
      apply hall
      show "birth" ∈ ["birth", "cares_after", "cares_after_phone"]
      simp
    have hca : isValidValue (getProp p "cares_after") true = true := by
      apply hall
      show "cares_after" ∈ ["birth", "cares_after", "cares_after_phone"]
      simp
    have hcp : isValidValue (getProp p "cares_after_phone") true = true := by
      apply hall
      show "cares_after_phone" ∈ ["birth", "cares_after", "cares_after_phone"]
      simp
    simp only []
    by_cases ht : truthy (getProp p "birth") = true
    · rw [if_pos ht]
      cases hcv : validateEntity (getProp p "birth") CONFIG.requiredBirth true with
      | some f =>
        simp only []
        constructor
        · intro h
          exact absurd h (by simp)
        · rintro ⟨-, -, -, hch⟩
          have hnone : validateEntity (getProp p "birth") CONFIG.requiredBirth true
              = none := by
            rw [validateEntity_none_iff]
            intro g hg
            have hg' : g = "children" := by
              have : g ∈ ["children"] := hg
              simpa using this
            subst hg'
            exact hch ht
          rw [hnone] at hcv
          exact absurd hcv (by simp)
      | none =>
        simp only []
        constructor
        · intro _
          refine ⟨hb, hca, hcp, fun _ => ?_⟩
          apply (validateEntity_none_iff (getProp p "birth") CONFIG.requiredBirth true).mp hcv
          show "children" ∈ ["children"]
          simp
        · intro _
          trivial
    · rw [if_neg ht]
      constructor
      · intro _
        exact ⟨hb, hca, hcp, fun hc => absurd hc ht⟩
      · intro _
        rfl

theorem strictPregOk_iff (p : JVal) :
    StrictPregOk p ↔
      (isNullish (getProp p "birth") = false ∧
       (truthy (getProp p "birth") = true →
         isValidValue (getProp (getProp p "birth") "children") true = true)) := by
  unfold StrictPregOk
  have e1 : validateEntity p CONFIG.requiredPregnancyStrict false = none ↔
      isValidValue (getProp p "birth") false = true := by
    rw [validateEntity_none_iff]
    show (∀ f ∈ ["birth"], isValidValue (getProp p f) false = true) ↔ _
    simp
  have e2 : validateEntity (getProp p "birth") CONFIG.requiredBirth true = none ↔
      isValidValue (getProp (getProp p "birth") "children") true = true := by
    rw [validateEntity_none_iff]
    show (∀ f ∈ ["children"], isValidValue (getProp (getProp p "birth") f) true = true) ↔ _
    simp
  have e3 : isValidValue (getProp p "birth") false = true ↔
      isNullish (getProp p "birth") = false := by
    rw [isValidValue_true_iff]
    simp
  rw [e1, e3]
  constructor
  · rintro ⟨h1, h2⟩
    exact ⟨h1, fun ht => e2.mp (h2 ht)⟩
  · rintro ⟨h1, h2⟩
    exact ⟨h1, fun ht => e2.mpr (h2 ht)⟩

/-! ## Claim theorems -/

/-- C1: In salvage mode, for every client whose `pregnancies` field is an
array passing the client-level non-empty check, each pregnancy is validated
independently (required fields `birth`, `cares_after`, `cares_after_phone`
with non-empty-array semantics, plus `birth.children` non-empty when `birth`
is truthy); every failing pregnancy is excluded from the client's output and
recorded as a skipped-pregnancy entry with client id, pregnancy id and
reason; if no pregnancy survives, the whole client is excluded and recorded
as a skipped-client entry with the no-valid-pregnancies-remaining reason;
otherwise the client is retained containing exactly its valid pregnancies
(in filtered form).  Stated for the client at an arbitrary position of the
input. -/
theorem C1_salvage_per_pregnancy (client : JVal) (xs : List JVal)
    (hp : getProp client "pregnancies" = .arr xs) (hne : xs ≠ [])
    (pre post : List JVal) :
    (∀ p, Salvage.validatePregnancy p = none ↔
      (isValidValue (getProp p "birth") true = true
       ∧ isValidValue (getProp p "cares_after") true = true
       ∧ isValidValue (getProp p "cares_after_phone") true = true
       ∧ (truthy (getProp p "birth") = true →
          isValidValue (getProp (getProp p "birth") "children") true = true)))
    ∧ (Salvage.processData (pre ++ client :: post)).2.skippedPregnancies
        = (Salvage.processData pre).2.skippedPregnancies
          ++ skippedEntriesOf (getProp client "id") xs
          ++ (Salvage.processData post).2.skippedPregnancies
    ∧ (xs.filter (fun p => (Salvage.validatePregnancy p).isNone) = [] →
        (Salvage.processData (pre ++ client :: post)).1
          = (Salvage.processData pre).1 ++ (Salvage.processData post).1
        ∧ (Salvage.processData (pre ++ client :: post)).2.skippedClients
          = (Salvage.processData pre).2.skippedClients
            ++ (⟨getProp client "id", "No valid pregnancies remaining after validation"⟩
                : SkippedClient)
              :: (Salvage.processData post).2.skippedClients)
    ∧ (xs.filter (fun p => (Salvage.validatePregnancy p).isNone) ≠ [] →
        (Salvage.processData (pre ++ client :: post)).1
          = (Salvage.processData pre).1
            ++ filterClient (setProp client "pregnancies"
                (.arr (xs.filter (fun p => (Salvage.validatePregnancy p).isNone))))
              :: (Salvage.processData post).1
        ∧ getProp (filterClient (setProp client "pregnancies"
            (.arr (xs.filter (fun p => (Salvage.validatePregnancy p).isNone)))))
            "pregnancies"
          = .arr ((xs.filter (fun p => (Salvage.validatePregnancy p).isNone)).map
              filterPregnancy)
        ∧ (Salvage.processData (pre ++ client :: post)).2.skippedClients
          = (Salvage.processData pre).2.skippedClients
            ++ (Salvage.processData post).2.skippedClients) := by
  have hstep := salvage_clientStep_valid client xs hp hne
  have happ := salvage_processData_append pre (client :: post)
  have hsp : (Salvage.clientStep client).2.2
      = skippedEntriesOf (getProp client "id") xs := by
    rw [hstep]
    split <;> rfl
  refine ⟨fun p => salvage_validatePregnancy_none_iff p, ?_, ?_, ?_⟩
  · rw [happ.2.2, salvage_processData_cons]
    show _ ++ ((Salvage.clientStep client).2.2
        ++ (Salvage.processData post).2.skippedPregnancies) = _
    rw [hsp, ← List.append_assoc]
  · intro hfe
    have hemp : (xs.filter (fun p => (Salvage.validatePregnancy p).isNone)).isEmpty
        = true := by
      rw [hfe]
      rfl
    constructor
    · rw [happ.1, salvage_processData_cons]
      show _ ++ ((Salvage.clientStep client).1 ++ (Salvage.processData post).1) = _
      rw [hstep, if_pos hemp]
      simp
    · rw [happ.2.1, salvage_processData_cons]
      show _ ++ ((Salvage.clientStep client).2.1
          ++ (Salvage.processData post).2.skippedClients) = _
      rw [hstep, if_pos hemp]
      simp
  · intro hfne
    have hemp : (xs.filter (fun p => (Salvage.validatePregnancy p).isNone)).isEmpty
        = false := by
      cases hfi : xs.filter (fun p => (Salvage.validatePregnancy p).isNone) with
      | nil => exact absurd hfi hfne
      | cons a as => rfl
    refine ⟨?_, getProp_filterClient_setProp client _, ?_⟩
    · rw [happ.1, salvage_processData_cons]
      show _ ++ ((Salvage.clientStep client).1 ++ (Salvage.processData post).1) = _
      rw [hstep, if_neg (by simp [hemp])]
      simp
    · rw [happ.2.1, salvage_processData_cons]
      show _ ++ ((Salvage.clientStep client).2.1
          ++ (Salvage.processData post).2.skippedClients) = _
      rw [hstep, if_neg (by simp [hemp])]
      simp

/-- Witness for C1 at a concrete client with one invalid and one valid
pregnancy. -/
theorem C1_salvage_per_pregnancy_witness :
    (Salvage.processData ([] ++ exClientB :: [])).2.skippedPregnancies
      = (Salvage.processData []).2.skippedPregnancies
        ++ skippedEntriesOf (getProp exClientB "id") [exPregBad, exPregGood]
        ++ (Salvage.processData []).2.skippedPregnancies :=
  (C1_salvage_per_pregnancy exClientB [exPregBad, exPregGood] rfl (by simp) [] []).2.1

/-- C2 counterexample: the claim says a strict-mode client is valid iff its
`pregnancies` field is a non-empty array (and the pregnancies pass their
checks).  A client whose `pregnancies` is a truthy non-array — here a plain
empty object — passes the client-level check (only null/undefined and empty
arrays are rejected) and, since a plain object has no numeric `length`, the
pregnancy loop runs zero iterations, so the client is valid although
`pregnancies` is not an array at all. -/
theorem C2_strict_iff_counterexample :
    Strict.validateClient (.obj [("id", .num 4), ("pregnancies", .obj [])]) = none
    ∧ isArr (getProp (.obj [("id", .num 4), ("pregnancies", .obj [])]) "pregnancies")
        = false :=
  ⟨rfl, rfl⟩

/-- C2 (amended): In strict mode, for a client whose `pregnancies` field
holds an array, the client is valid iff the array is non-empty AND every
pregnancy in it has a non-null/undefined `birth` AND, whenever that `birth`
is truthy, `birth.children` passes the non-empty-array check; any single
failure anywhere makes the whole client invalid, and an invalid client is
skipped from the output entirely (no partial salvage) while a valid one is
retained filtered.  (The amendment restricts the claimed equivalence to
array-valued `pregnancies`: the counterexample shows a truthy non-array also
passes the client-level check.) -/
theorem C2_strict_validation_amended :
    (∀ (client : JVal) (xs : List JVal), getProp client "pregnancies" = .arr xs →
      (Strict.validateClient client = none ↔
        (xs ≠ [] ∧ ∀ p ∈ xs,
          isNullish (getProp p "birth") = false ∧
          (truthy (getProp p "birth") = true →
            isValidValue (getProp (getProp p "birth") "children") true = true))))
    ∧ (∀ (client : JVal) (r : String), Strict.validateClient client = some r →
        Strict.clientStep client = ([], [⟨getProp client "id", r⟩]))
    ∧ (∀ client : JVal, Strict.validateClient client = none →
        Strict.clientStep client = ([filterClient client], [])) := by
  refine ⟨?_, ?_, ?_⟩
  · intro client xs hp
    rw [strict_validateClient_none_iff client xs hp]
    constructor
    · rintro ⟨h1, h2⟩
      exact ⟨h1, fun p hp' => (strictPregOk_iff p).mp (h2 p hp')⟩
    · rintro ⟨h1, h2⟩
      exact ⟨h1, fun p hp' => (strictPregOk_iff p).mpr (h2 p hp')⟩
  · intro client r h
    unfold Strict.clientStep
    rw [h]
  · intro client h
    unfold Strict.clientStep
    rw [h]

/-- Witness for the amended C2: the scenario-A client is valid, derived by
applying the equivalence at a concrete input. -/
theorem C2_strict_validation_amended_witness :
    Strict.validateClient exClientA = none := by
  apply (C2_strict_validation_amended.1 exClientA [exPregStrict] rfl).mpr
  constructor
  · simp
  · intro p hp
    rw [List.mem_singleton] at hp
    subst hp
    exact ⟨rfl, fun _ => rfl⟩

theorem strict_clientStep_outputs_shape (c : JVal) :
    (Strict.clientStep c).1 = [] ∨ ∃ x, (Strict.clientStep c).1 = [filterClient x] := by
  unfold Strict.clientStep
  cases Strict.validateClient c with
  | none => exact Or.inr ⟨c, rfl⟩
  | some r => exact Or.inl rfl

theorem salvage_clientStep_outputs_shape (c : JVal) :
    (Salvage.clientStep c).1 = [] ∨ ∃ x, (Salvage.clientStep c).1 = [filterClient x] := by
  unfold Salvage.clientStep
  cases Salvage.validateClient c with
  | some r => exact Or.inl rfl
  | none =>
    simp only []
    split
    · exact Or.inl rfl
    · exact Or.inr ⟨_, rfl⟩

/-- C3: Whitelist closure.  Every client the filter emits — directly or
through either variant's pipeline — contains only whitelisted keys for its
type, recursively: its pregnancies, their births, children, care-afters and
care-after-phones contain only their whitelists' keys, and every retained
`data_encr` blob contains only keys in the type's fixed allow-list or (for
care-after blobs only) keys matching a configured dynamic pattern. -/
theorem C3_whitelist_closure :
    (∀ c : JVal, closedClient (filterClient c) = true)
    ∧ (∀ input : List JVal, ∀ o ∈ (Strict.processData input).1, closedClient o = true)
    ∧ (∀ input : List JVal, ∀ o ∈ (Salvage.processData input).1, closedClient o = true) := by
  refine ⟨closedClient_filterClient, ?_, ?_⟩
  · intro input
    induction input with
    | nil =>
      intro o ho
      have h0 : (Strict.processData ([] : List JVal)).1 = [] := rfl
      rw [h0] at ho
      exact absurd ho (List.not_mem_nil o)
    | cons c rest ih =>
      intro o ho
      rw [strict_processData_cons] at ho
      rcases List.mem_append.mp ho with hs | hr
      · rcases strict_clientStep_outputs_shape c with h0 | ⟨x, h1⟩
        · rw [h0] at hs
          exact absurd hs (by simp)
        · rw [h1, List.mem_singleton] at hs
          subst hs
          exact closedClient_filterClient x
      · exact ih o hr
  · intro input
    induction input with
    | nil =>
      intro o ho
      have h0 : (Salvage.processData ([] : List JVal)).1 = [] := rfl
      rw [h0] at ho
      exact absurd ho (List.not_mem_nil o)
    | cons c rest ih =>
      intro o ho
      rw [salvage_processData_cons] at ho
      rcases List.mem_append.mp ho with hs | hr
      · rcases salvage_clientStep_outputs_shape c with h0 | ⟨x, h1⟩
        · rw [h0] at hs
          exact absurd hs (by simp)
        · rw [h1, List.mem_singleton] at hs
          subst hs
          exact closedClient_filterClient x
      · exact ih o hr

/-- Witness for C3 at a concrete pipeline run. -/
theorem C3_whitelist_closure_witness :
    closedClient (filterClient exClientA) = true
    ∧ closedClient (filterClient exClientB) = true :=
  ⟨C3_whitelist_closure.1 exClientA, C3_whitelist_closure.1 exClientB⟩

/-- C4: Conservation of counts.  In both variants `successCount` plus the
skipped-clients count equals `totalClients`, which equals the input array
length, with no hypotheses.  In salvage mode, per client that passed the
client-level check (array `pregnancies`): the number of skipped-pregnancy
entries it produces plus the number of pregnancies inside its retained
output equals the number of its pregnancies; and globally, the
skipped-pregnancy count plus the pregnancies retained across the output
equal the pregnancies of all clients that passed the client-level check. -/
theorem C4_conservation :
    (∀ input : List JVal,
      (Strict.processData input).2.totalClients = input.length
      ∧ (Strict.processData input).2.successCount
          + (Strict.processData input).2.skippedCount
          = (Strict.processData input).2.totalClients)
    ∧ (∀ input : List JVal,
      (Salvage.processData input).2.totalClients = input.length
      ∧ (Salvage.processData input).2.successCount
          + (Salvage.processData input).2.skippedClientsCount
          = (Salvage.processData input).2.totalClients)
    ∧ (∀ (client : JVal) (xs : List JVal),
        getProp client "pregnancies" = .arr xs → xs ≠ [] →
        (Salvage.clientStep client).2.2.length
          + ((Salvage.clientStep client).1.map
              (fun o => arrLen (getProp o "pregnancies"))).sum
          = xs.length)
    ∧ (∀ input : List JVal,
        (∀ c ∈ input, Salvage.validateClient c = none →
          isArr (getProp c "pregnancies") = true) →
        (Salvage.processData input).2.skippedPregnanciesCount
          + ((Salvage.processData input).1.map
              (fun o => arrLen (getProp o "pregnancies"))).sum
          = (input.map (fun c => if Salvage.validateClient c = none
              then arrLen (getProp c "pregnancies") else 0)).sum) :=
  ⟨strict_processData_counts, salvage_processData_counts,
   salvage_clientStep_preg_counts, salvage_preg_conservation⟩

/-- Witness for C4 at concrete inputs. -/
theorem C4_conservation_witness :
    ((Salvage.clientStep exClientB).2.2.length
      + ((Salvage.clientStep exClientB).1.map
          (fun o => arrLen (getProp o "pregnancies"))).sum
      = ([exPregBad, exPregGood] : List JVal).length)
    ∧ ((Salvage.processData [exClientB]).2.skippedPregnanciesCount
      + ((Salvage.processData [exClientB]).1.map
          (fun o => arrLen (getProp o "pregnancies"))).sum
      = ([exClientB].map (fun c => if Salvage.validateClient c = none
          then arrLen (getProp c "pregnancies") else 0)).sum) :=
  ⟨C4_conservation.2.2.1 exClientB [exPregBad, exPregGood] rfl (by simp),
   C4_conservation.2.2.2 [exClientB] (by
     intro c hc _
     rw [List.mem_singleton] at hc
     subst hc
     rfl)⟩

/-- C5: `validateEntity` iterates the required fields in order and returns
the first invalid field's name, checking no later field (the result is the
same for every tail after the first failure); a value is invalid exactly
when it is null/undefined or — only when the non-empty-array check is
enabled — an empty array; empty strings, zero and `false` are valid; a
null/undefined entity is tolerated: its fields read as `undefined`, so the
first required field is reported missing. -/
theorem C5_validateEntity_spec :
    (∀ (e : JVal) (c : Bool) (pre : List String) (f : String) (post : List String),
      (∀ g ∈ pre, isValidValue (getProp e g) c = true) →
      isValidValue (getProp e f) c = false →
      validateEntity e (pre ++ f :: post) c = some f)
    ∧ (∀ (v : JVal) (c : Bool),
        isValidValue v c = false ↔
          (isNullish v = true ∨ (c = true ∧ isEmptyArr v = true)))
    ∧ (∀ c : Bool, isValidValue (.str "") c = true ∧ isValidValue (.num 0) c = true
        ∧ isValidValue (.bool false) c = true)
    ∧ (∀ f : String, getProp .null f = .undef ∧ getProp .undef f = .undef)
    ∧ (∀ (f : String) (rest : List String) (c : Bool),
        validateEntity .null (f :: rest) c = some f
        ∧ validateEntity .undef (f :: rest) c = some f) := by
  refine ⟨validateEntity_first_failure, isValidValue_false_iff, ?_, ?_, ?_⟩
  · intro c
    refine ⟨?_, ?_, ?_⟩ <;> cases c <;> rfl
  · intro f
    exact ⟨rfl, rfl⟩
  · intro f rest c
    exact ⟨rfl, rfl⟩

/-- Witness for C5: the short-circuit applied at a concrete entity whose
second field is null — the third field is never reported. -/
theorem C5_validateEntity_spec_witness :
    validateEntity (.obj [("a", .num 0), ("b", .null), ("c", .null)])
      (["a"] ++ "b" :: ["c"]) false = some "b" :=
  C5_validateEntity_spec.1 (.obj [("a", .num 0), ("b", .null), ("c", .null)])
    false ["a"] "b" ["c"]
    (by
      intro g hg
      rw [List.mem_singleton] at hg
      subst hg
      rfl)
    rfl

/-- C6: The pattern matcher performs an anchored full-string match in which
the single `{id}` placeholder stands for one or more decimal digits:
the three quoted examples evaluate as claimed, and in general a key matches
`kind-{id}-nahrung` exactly when it is `kind-` ++ a non-empty block of
digits ++ `-nahrung` — any other key returns false. -/
theorem C6_pattern_matcher :
    matchesDynamicPattern "kind-12-nahrung" "kind-{id}-nahrung" = true
    ∧ matchesDynamicPattern "kind-nahrung" "kind-{id}-nahrung" = false
    ∧ matchesDynamicPattern "kind-12-nahrungx" "kind-{id}-nahrung" = false
    ∧ (∀ key : String,
        matchesDynamicPattern key "kind-{id}-nahrung" = true ↔
          ∃ mid : List Char, mid ≠ [] ∧ mid.all Char.isDigit = true ∧
            key.data = "kind-".data ++ (mid ++ "-nahrung".data)) := by
  refine ⟨rfl, rfl, rfl, ?_⟩
  intro key
  have hsplit : matchesDynamicPattern key "kind-{id}-nahrung"
      = matchesWithSplit "kind-".data "-nahrung".data key.data := by
    show (match splitAtFirstAux "{id}".data "kind-{id}-nahrung".data with
      | some (pre, suf) => matchesWithSplit pre suf key.data
      | none => key == "kind-{id}-nahrung") = _
    rw [show splitAtFirstAux "{id}".data "kind-{id}-nahrung".data
      = some ("kind-".data, "-nahrung".data) from rfl]
  rw [hsplit, matchesWithSplit_iff]

/-- C7: `filterDataEncr` on an object blob retains exactly the keys that are
literally allowed or (when dynamic patterns are supplied) match some
pattern, silently dropping the rest, and the retained keys keep the input
blob's own order with their original values; non-object input passes
through unchanged; and the quoted care-after example evaluates as claimed:
`{stillt: true, "kind-5-nahrung": "x", "kind-5-unknown": "y"}` filters to
`{stillt: true, "kind-5-nahrung": "x"}`. -/
theorem C7_filterDataEncr_spec :
    (∀ (fs : List (String × JVal)) (a : List String) (ps : Option (List String)),
      objKeys (filterDataEncr (.obj fs) a ps)
        = (fs.map Prod.fst).filter (keepKey a ps)
      ∧ (∀ k, keepKey a ps k = true → k ∈ fs.map Prod.fst →
          getProp (filterDataEncr (.obj fs) a ps) k = getProp (.obj fs) k))
    ∧ (∀ (d : JVal) (a : List String) (ps : Option (List String)),
        isObjLike d = false → filterDataEncr d a ps = d)
    ∧ getProp (filterCareAfter (.obj [("id", .num 1),
        ("data_encr", .obj [("stillt", .bool true), ("kind-5-nahrung", .str "x"),
          ("kind-5-unknown", .str "y")])])) "data_encr"
      = .obj [("stillt", .bool true), ("kind-5-nahrung", .str "x")] := by
  refine ⟨?_, filterDataEncr_pass, rfl⟩
  intro fs a ps
  have hobj : isObjLike (JVal.obj fs) = true := rfl
  constructor
  · rw [filterDataEncr_pickedObj _ a ps hobj, objKeys_pickedObj]
    rfl
  · intro k hk hmem
    rw [filterDataEncr_pickedObj _ a ps hobj, getProp_pickedObj]
    rw [if_pos ⟨hmem, hk⟩]

/-- Witness for C7: pass-through on a number, and value retention of an
allowed key, at concrete inputs. -/
theorem C7_filterDataEncr_spec_witness :
    filterDataEncr (.num 5) ["a"] none = .num 5
    ∧ getProp (filterDataEncr (.obj [("stillt", .bool true), ("zzz", .num 9)])
        CONFIG.dataEncrCareAfter (some CONFIG.careAfterDynamicPatterns)) "stillt"
      = .bool true :=
  ⟨C7_filterDataEncr_spec.2.1 (.num 5) ["a"] none rfl,
   by
     have h := (C7_filterDataEncr_spec.1 [("stillt", .bool true), ("zzz", .num 9)]
       CONFIG.dataEncrCareAfter (some CONFIG.careAfterDynamicPatterns)).2 "stillt"
       rfl (by simp)
     rw [h]
     rfl⟩

/-- C8: Idempotence.  Applying any of the six entity filters twice with the
same configuration equals applying it once, likewise the encrypted-field
filter with any allow-list and patterns, and hence filtering an
already-filtered dataset yields an identical dataset. -/
theorem C8_filters_idempotent :
    (∀ c, filterClient (filterClient c) = filterClient c)
    ∧ (∀ p, filterPregnancy (filterPregnancy p) = filterPregnancy p)
    ∧ (∀ b, filterBirth (filterBirth b) = filterBirth b)
    ∧ (∀ ch, filterChild (filterChild ch) = filterChild ch)
    ∧ (∀ ca, filterCareAfter (filterCareAfter ca) = filterCareAfter ca)
    ∧ (∀ cp, filterCareAfterPhone (filterCareAfterPhone cp) = filterCareAfterPhone cp)
    ∧ (∀ d a ps, filterDataEncr (filterDataEncr d a ps) a ps = filterDataEncr d a ps)
    ∧ (∀ input : List JVal,
        (input.map filterClient).map filterClient = input.map filterClient) := by
  refine ⟨filterClient_idem, filterPregnancy_idem, filterBirth_idem, filterChild_idem,
    filterCareAfter_idem, filterCareAfterPhone_idem, filterDataEncr_idem, ?_⟩
  intro input
  rw [List.map_map]
  apply List.map_congr_left
  intro a _
  exact filterClient_idem a

/-- C10: Implicit edge case.  For every client whose `pregnancies` value is
neither null/undefined nor an empty array — including non-array values such
as a plain object — the client-level validation of both variants accepts
it: `isValidValue` with the non-empty-array check returns true (the check
rejects only actual empty arrays), so the shared client-level
required-field check passes and the salvage `validateClient` (which is
exactly that check) returns valid. -/
theorem C10_client_level_check_nonarray (c v : JVal)
    (h : getProp c "pregnancies" = v)
    (h1 : isNullish v = false) (h2 : isEmptyArr v = false) :
    isValidValue v true = true
    ∧ validateEntity c CONFIG.requiredClient true = none
    ∧ Salvage.validateClient c = none := by
  have hval : isValidValue v true = true := by
    unfold isValidValue
    rw [h1, h2]
    simp
  have hve : validateEntity c CONFIG.requiredClient true = none := by
    show (if isValidValue (getProp c "pregnancies") true = false then some "pregnancies"
      else validateEntity c [] true) = none
    rw [h, hval, if_neg (by simp)]
    rfl
  refine ⟨hval, hve, ?_⟩
  rw [salvage_validateClient_none_iff, h]
  exact hval

/-- Witness for C10: a client whose `pregnancies` is a plain empty object
(not an array) passes the client-level check of both variants. -/
theorem C10_client_level_check_nonarray_witness :
    isValidValue (.obj []) true = true
    ∧ validateEntity (.obj [("pregnancies", .obj [])]) CONFIG.requiredClient true = none
    ∧ Salvage.validateClient (.obj [("pregnancies", .obj [])]) = none :=
  C10_client_level_check_nonarray (.obj [("pregnancies", .obj [])]) (.obj []) rfl rfl rfl
